import Mathlib

/-!
Verification development for the morph-pay cross-chain transfer orchestrator.

This file gives a shallow embedding of the transfer orchestration core of the
repository — `src/lib/cctp.ts` (CCTPService), `src/lib/cross-chain-transfer.ts`
(CrossChainTransferService), `src/lib/hooks.ts` (CCTPHooksService,
MerchantHookManager) and `src/lib/webhook.ts` (WebhookService) — and proves
properties of the embedded code.

Modelling conventions:
- External effects (RPC reads, contract submissions, the attestation API,
  webhook endpoints, and the ethers keccak256/solidityPacked primitives) are
  supplied by an explicit environment record `Env`; each run returns the list
  of externally visible calls (`Event`) it made, in order, together with an
  `Except` result mirroring the JS return-or-throw behaviour.
- JS errors are stringly typed (`new Error(msg)`); we model them as the
  inductive `JsError` whose `errMessage` matches the source message strings
  (numeric interpolation of environment-supplied values is abstracted where no
  property depends on it, as noted at each constructor).
- Wall-clock time appears only in the attestation polling loop, where the code
  sleeps a fixed 10000 ms between iterations; we model time discretely, each
  iteration advancing the clock by exactly one poll interval (external call
  durations are 0 in the model), and omit the purely observational
  `timeElapsed` / `estimatedCompletionTime` timestamp fields.
-/

/-- Per-chain static metadata, from the `ChainConfig` interface of
`src/lib/cctp.ts` (the `rpcUrl` endpoint string is omitted: it is consumed
only by the opaque provider, never by the orchestration logic). -/
structure ChainConfig where
  id : Nat
  name : String
  domainId : Nat
  tokenMessengerAddress : String
  messageTransmitterAddress : String
  tokenMinterAddress : String
  usdcAddress : String
  supportsSourceTransfer : Bool
  supportsDestinationTransfer : Bool
  supportsFastTransfer : Bool
  deriving DecidableEq, Repr

/-- The three burn code paths of `CCTPService.initiateBurn`, distinguished in
the source by its branch structure (and its console markers). -/
inductive BurnBranch
  | withHook
  | fastV2
  | standard
  deriving DecidableEq, Repr

/-- Gas limit passed with a burn submission: either a fixed literal
(`gasLimit: options.gasLimit || default`) or the estimate-with-20%-buffer of
the standard branch (`estimatedGas * 120n / 100n`). -/
inductive GasSpec
  | fixed (limit : Nat)
  | estimatedBuffered (estimate : Nat)
  deriving DecidableEq, Repr

/-- One burn submission to the TokenMessenger contract, recording which
variant was called and the arguments the source passes to it.  The three
optional V2 parameters are `none` exactly on the `depositForBurnWithHook`
call, which the source invokes without them.  `mintRecipient` records the
recipient address before the `ethers.zeroPadValue(·, 32)` padding. -/
structure BurnCall where
  branch : BurnBranch
  amount : Int
  destinationDomain : Nat
  mintRecipient : String
  burnToken : String
  hookData : Option String
  destinationCaller : Option String
  maxFee : Option Nat
  minFinalityThreshold : Option Nat
  gasLimit : GasSpec
  deriving DecidableEq, Repr

/-- Transfer lifecycle steps of the `TransferProgress` interface. -/
inductive Step
  | BURNING
  | WAITING_ATTESTATION
  | READY_TO_MINT
  | MINTING
  | COMPLETED
  | FAILED
  deriving DecidableEq, Repr

/-- Externally visible calls made during a run, in program order. -/
inductive Event
  | progressEmitted (step : Step) (message : String) (txHash : Option String) (progressPercent : ℚ)
  | webhookDelivery (url : String) (eventName : String)
  | balanceRead (owner : String) (chainKey : String)
  | allowanceRead (owner : String) (chainKey : String)
  | gasEstimateCall
  | burnSubmit (call : BurnCall)
  | mintSubmit (chainKey : String) (messageBytes : String) (attestation : String)
      (useUnfinalized : Bool) (gasLimit : Nat)
  | messageBytesFetch (messageHash : String)
  | notifyPost (url : String)
  deriving DecidableEq, Repr

/-- Stringly-typed JS errors thrown by the embedded code.  `errMessage` below
recovers the message string each constructor corresponds to. -/
inductive JsError
  | unsupportedChain
  | unsupportedDestinationChain
  | parseUnitsError
  | invalidAmount
  | insufficientBalance (haveAmt : Int) (needAmt : Int)
  | insufficientAllowance (needAmt : Int)
  | messageNotFound
  | txFailed (inner : String)
  | attestationTimeout (elapsedMs : Nat) (attempts : Nat)
  | attestationMissing
  | mintFailed (inner : String)
  | undefinedNameAccess
  deriving DecidableEq, Repr

/-- Math.round(ms / 1000), used to render the attestation timeout message. -/
def roundDiv1000 (ms : Nat) : Nat := (ms + 500) / 1000

/-- Message string of each error, matching the `new Error(...)` literals of
the source.  The insufficient-balance/allowance messages interpolate
environment-supplied balance strings; that interpolation is abstracted (no
verified property inspects those two messages).  The `undefinedNameAccess`
message stands for the engine TypeError raised when reading `.name` of an
undefined registry entry. -/
def errMessage : JsError → String
  | JsError.unsupportedChain => "Unsupported chain"
  | JsError.unsupportedDestinationChain => "Unsupported destination chain"
  | JsError.parseUnitsError => "invalid FixedNumber string value"
  | JsError.invalidAmount => "Invalid amount"
  | JsError.insufficientBalance _ _ => "Insufficient USDC balance"
  | JsError.insufficientAllowance _ => "Insufficient USDC allowance"
  | JsError.messageNotFound => "MessageSent event not found in transaction receipt"
  | JsError.txFailed inner => "Transaction failed: " ++ inner
  | JsError.attestationTimeout e k =>
      "Attestation timed out after " ++ toString (roundDiv1000 e) ++ "s (" ++ toString k
        ++ " attempts). Testnet attestations can take longer - message may still be processing."
  | JsError.attestationMissing => "Attestation not available"
  | JsError.mintFailed inner => "Mint failed: " ++ inner
  | JsError.undefinedNameAccess => "Cannot read properties of undefined (reading name)"

/-- A log entry of a burn transaction receipt, as seen by
`extractMessageHashFromReceipt`: either a parseable `MessageSent(bytes)` event
carrying the protocol message bytes, or any other (or unparseable) log. -/
inductive ReceiptLog
  | messageSent (message : String)
  | other
  deriving DecidableEq, Repr

/-- Outcome of one `getAttestation` call inside the polling loop:
the call threw (network/API failure — the loop swallows it), returned null
(attestation not ready), or returned a non-empty attestation. -/
inductive AttResult
  | clientErr
  | notReady
  | ready (attestation : String)
  deriving DecidableEq, Repr

/-- A registered webhook endpoint, from `WebhookConfig` of
`src/lib/webhook.ts`. -/
structure WebhookConfig where
  url : String
  events : List String
  enabled : Bool
  deriving DecidableEq, Repr

/-- The environment of external collaborators: every value the embedded code
obtains from outside (RPC reads, contract calls, the attestation API, the
webhook registry, and the ethers hashing primitives, which are opaque
library calls from the point of view of the orchestration logic).
`balanceOf` and `allowanceOf` are the decimal strings the gateway returns,
represented exactly in the token's 6-decimal fixed point (micro-USDC), so
the parseFloat comparison of the source is the integer comparison here. -/
structure Env where
  senderAddress : String
  webhooks : List WebhookConfig
  balanceOf : String → String → Int
  allowanceOf : String → String → Int
  providerPresent : Bool
  rawBalance : Int
  rawAllowance : Int
  estimateGas : Except String Nat
  submitBurn : BurnCall → Except String String
  receiptLogs : String → List ReceiptLog
  keccakOfBytes : String → String
  mkHookId : String → String → String → String
  mkSwapId : String → Int → String
  getAttestation : Nat → AttResult
  fetchMessageBytes : Except Unit (Option String)
  submitMint : String → String → String → Bool → Except String String

/-- JS truthiness of an optional string (`if (s) ...`): defined and
non-empty. -/
def strTruthy : Option String → Bool
  | some s => !(s == "")
  | none => false

/-- JS `opt || dflt` for an optional number: `0` and `undefined` both fall
back to the default. -/
def jsOr0 (g : Option Nat) (dflt : Nat) : Nat :=
  match g with
  | some n => if n = 0 then dflt else n
  | none => dflt

/-- ethers.ZeroHash, passed as `destinationCaller` on non-hook burns. -/
def ZeroHash : String :=
  "0x0000000000000000000000000000000000000000000000000000000000000000"

/-- Accumulate a digit string into a Nat; `none` on any non-digit. -/
def parseNatDigits (cs : List Char) : Option Nat :=
  cs.foldl
    (fun acc c =>
      match acc with
      | some n => if c.isDigit then some (n * 10 + (c.toNat - 48)) else none
      | none => none)
    (some 0)

/-- ethers.parseUnits(value, 6): an optional minus sign, decimal digits, an
optional dot and at most 6 fraction digits, with at least one digit overall;
the result is the value scaled by 10^6.  Returns `none` where ethers throws
on a malformed string. -/
def parseUnits6 (s : String) : Option Int :=
  let cs := s.data
  let neg := match cs with
    | c :: _ => c == '-'
    | [] => false
  let body := if neg then cs.drop 1 else cs
  if body.any (fun c => !(c.isDigit || c == '.')) then none
  else if (body.filter (fun c => c == '.')).length > 1 then none
  else
    let intPart := body.takeWhile (fun c => !(c == '.'))
    let fracPart := (body.dropWhile (fun c => !(c == '.'))).drop 1
    if intPart.length + fracPart.length = 0 then none
    else if fracPart.length > 6 then none
    else
      match parseNatDigits intPart, parseNatDigits fracPart with
      | some ip, some fp =>
          let scaled : Nat := ip * 1000000 + fp * 10 ^ (6 - fracPart.length)
          some (if neg then -(scaled : Int) else (scaled : Int))
      | _, _ => none

/-- The static chain registry `SUPPORTED_CHAINS` of `src/lib/cctp.ts`,
parameterised by the two configuration inputs it reads:
`config.cctpEnvironment === 'testnet'` and
`config.features.enableFastTransfer` (the latter feeds the
`supportsFastTransfer` flag of every entry). -/
def SUPPORTED_CHAINS (testnet : Bool) (enableFast : Bool) : String → Option ChainConfig :=
  fun key =>
    if key == "ethereum" then
      some { id := if testnet then 11155111 else 1
             name := if testnet then "Ethereum Sepolia" else "Ethereum"
             domainId := 0
             tokenMessengerAddress := if testnet then "0x8FE6B999Dc680CcFDD5Bf7EB0974218be2542DAA" else "0xBd3fa81B58Ba92a82136038B25aDec7066af3155"
             messageTransmitterAddress := if testnet then "0xE737e5cEBEEBa77EFE34D4aa090756590b1CE275" else "0x0a992d191DEeC32aFe36203Ad87D7d289a738F81"
             tokenMinterAddress := if testnet then "0xb43db544E2c27092c107639Ad201b3dEfAbcF192" else "0xc4922d64a24675E16e1586e3e3Aa56C06fABe907"
             usdcAddress := if testnet then "0x1c7D4B196Cb0C7B01d743Fbc6116a902379C7238" else "0xA0b86a33E75A9DB55553dAe29b73E98e82c0c6b5"
             supportsSourceTransfer := true
             supportsDestinationTransfer := true
             supportsFastTransfer := enableFast }
    else if key == "arbitrum" then
      some { id := if testnet then 421614 else 42161
             name := if testnet then "Arbitrum Sepolia" else "Arbitrum"
             domainId := 3
             tokenMessengerAddress := if testnet then "0x8FE6B999Dc680CcFDD5Bf7EB0974218be2542DAA" else "0x19330d10D9Cc8751218eaf51E8885D058642E08A"
             messageTransmitterAddress := if testnet then "0xE737e5cEBEEBa77EFE34D4aa090756590b1CE275" else "0xC30362313FBBA5cf9163F0bb16a0e01f01A896ca"
             tokenMinterAddress := if testnet then "0xb43db544E2c27092c107639Ad201b3dEfAbcF192" else "0xE7Ed1fa7f45D05C508232aa32649D89b73b8bA48"
             usdcAddress := if testnet then "0x75faf114eafb1BDbe2F0316DF893fd58CE46AA4d" else "0xaf88d065e77c8cC2239327C5EDb3A432268e5831"
             supportsSourceTransfer := true
             supportsDestinationTransfer := true
             supportsFastTransfer := enableFast }
    else if key == "base" then
      some { id := if testnet then 84532 else 8453
             name := if testnet then "Base Sepolia" else "Base"
             domainId := 6
             tokenMessengerAddress := if testnet then "0x8FE6B999Dc680CcFDD5Bf7EB0974218be2542DAA" else "0x1682Ae6375C4E4A97e4B583BC394c861A46D8962"
             messageTransmitterAddress := if testnet then "0xE737e5cEBEEBa77EFE34D4aa090756590b1CE275" else "0xAD09780d193884d503182aD4588450C416D6F9D4"
             tokenMinterAddress := if testnet then "0xb43db544E2c27092c107639Ad201b3dEfAbcF192" else "0xc4922d64a24675E16e1586e3e3Aa56C06fABe907"
             usdcAddress := if testnet then "0x036CbD53842c5426634e7929541eC2318f3dCF7e" else "0x833589fCD6eDb6E08f4c7C32D4f71b54bdA02913"
             supportsSourceTransfer := true
             supportsDestinationTransfer := true
             supportsFastTransfer := enableFast }
    else if key == "avalanche" then
      some { id := if testnet then 43113 else 43114
             name := if testnet then "Avalanche Fuji" else "Avalanche"
             domainId := 1
             tokenMessengerAddress := if testnet then "0x8FE6B999Dc680CcFDD5Bf7EB0974218be2542DAA" else "0x6B25532e1060CE10cc3B0A99e5683b91BFDe6982"
             messageTransmitterAddress := if testnet then "0xE737e5cEBEEBa77EFE34D4aa090756590b1CE275" else "0x8186359aF5F57FbB40c6b14A588d2A59C0C29880"
             tokenMinterAddress := if testnet then "0xb43db544E2c27092c107639Ad201b3dEfAbcF192" else "0x420f5035fd5dc62a167e7e7f08b604335ae272b8"
             usdcAddress := if testnet then "0x5425890298aed601595a70AB815c96711a31Bc65" else "0xB97EF9Ef8734C71904D8002F8b6Bc66Dd9c48a6E"
             supportsSourceTransfer := true
             supportsDestinationTransfer := true
             supportsFastTransfer := enableFast }
    else if key == "sonic" then
      some { id := if testnet then 64165 else 146
             name := if testnet then "Sonic Testnet" else "Sonic"
             domainId := 4
             tokenMessengerAddress := if testnet then "0x8FE6B999Dc680CcFDD5Bf7EB0974218be2542DAA" else "0x28b5a0e9C621a5BadaA536219b3a228C8168cf5d"
             messageTransmitterAddress := if testnet then "0xE737e5cEBEEBa77EFE34D4aa090756590b1CE275" else "0x81D40F21F12A8F0E3252Bccb954D722d4c464B64"
             tokenMinterAddress := if testnet then "0xb43db544E2c27092c107639Ad201b3dEfAbcF192" else "0xfd78EE919681417d192449715b2594ab58f5D002"
             usdcAddress := if testnet then "0x5425890298aed601595a70AB815c96711a31Bc65" else "0x29219dd400f2Bf60E5a23d13Be72B486D4038894"
             supportsSourceTransfer := true
             supportsDestinationTransfer := true
             supportsFastTransfer := enableFast }
    else none

/-- Per-call burn options, from the `TransferOptions` interface of
`src/lib/cctp.ts`. -/
structure TransferOptions where
  useFastTransfer : Bool
  hooks : Option String
  gasLimit : Option Nat
  deriving DecidableEq, Repr

/-- Return value of a successful `initiateBurn`. -/
structure BurnResult where
  txHash : String
  messageHash : String
  sourceDomain : Nat
  deriving DecidableEq, Repr

/-- WebhookService.sendWebhook: deliver the event to every enabled registered
webhook subscribed to it (delivery failures are caught inside
`deliverWebhook` and logged, so the call itself never throws). -/
def sendWebhookEvents (hooks : List WebhookConfig) (eventName : String) : List Event :=
  (hooks.filter (fun c => c.enabled && c.events.contains eventName)).map
    (fun c => Event.webhookDelivery c.url eventName)

/-- CCTPService.extractMessageHashFromReceipt: scan the receipt logs for the
first parseable `MessageSent` event and return the keccak256 hash of its
message bytes; throw `MessageSent event not found in transaction receipt`
when no log matches. -/
def extractMessageHashFromReceipt (env : Env) (logs : List ReceiptLog) : Except JsError String :=
  match logs.findSome? (fun l =>
      match l with
      | ReceiptLog.messageSent m => some m
      | ReceiptLog.other => none) with
  | some m => Except.ok (env.keccakOfBytes m)
  | none => Except.error JsError.messageNotFound

/-- Shared tail of the hook and fast burn branches: submit the transaction,
await the receipt and extract the message hash.  Errors thrown here are
re-wrapped by `initiateBurn`'s outer catch as `Transaction failed: ...`. -/
def finishBurn (env : Env) (evs : List Event) (call : BurnCall) (sourceDomain : Nat) :
    List Event × Except JsError BurnResult :=
  match env.submitBurn call with
  | Except.error m => (evs, Except.error (JsError.txFailed m))
  | Except.ok txHash =>
    match extractMessageHashFromReceipt env (env.receiptLogs txHash) with
    | Except.error e => (evs, Except.error (JsError.txFailed (errMessage e)))
    | Except.ok messageHash =>
        (evs, Except.ok { txHash := txHash, messageHash := messageHash, sourceDomain := sourceDomain })

/-- The `depositForBurnWithHook` call record of the hook branch. -/
def hookCall (sourceConfig destConfig : ChainConfig) (burnAmount : Int)
    (recipientAddress : String) (options : TransferOptions) : BurnCall :=
  { branch := BurnBranch.withHook
    amount := burnAmount
    destinationDomain := destConfig.domainId
    mintRecipient := recipientAddress
    burnToken := sourceConfig.usdcAddress
    hookData := options.hooks
    destinationCaller := none
    maxFee := none
    minFinalityThreshold := none
    gasLimit := GasSpec.fixed (jsOr0 options.gasLimit 500000) }

/-- The fast-finality `depositForBurn` call record. -/
def fastCall (sourceConfig destConfig : ChainConfig) (burnAmount : Int)
    (recipientAddress : String) (options : TransferOptions) : BurnCall :=
  { branch := BurnBranch.fastV2
    amount := burnAmount
    destinationDomain := destConfig.domainId
    mintRecipient := recipientAddress
    burnToken := sourceConfig.usdcAddress
    hookData := none
    destinationCaller := some ZeroHash
    maxFee := some 500
    minFinalityThreshold := some 1000
    gasLimit := GasSpec.fixed (jsOr0 options.gasLimit 300000) }

/-- The standard `depositForBurn` call record (note the finality threshold
still reads the requested fast flag: `options.useFastTransfer ? 1000 : 0`). -/
def standardCall (sourceConfig destConfig : ChainConfig) (burnAmount : Int)
    (recipientAddress : String) (useFastTransfer : Bool) (g : Nat) : BurnCall :=
  { branch := BurnBranch.standard
    amount := burnAmount
    destinationDomain := destConfig.domainId
    mintRecipient := recipientAddress
    burnToken := sourceConfig.usdcAddress
    hookData := none
    destinationCaller := some ZeroHash
    maxFee := some 500
    minFinalityThreshold := some (if useFastTransfer then 1000 else 0)
    gasLimit := GasSpec.estimatedBuffered g }

/-- The inner try block of the standard branch of `initiateBurn`: raw
allowance/balance pre-checks through the provider (when one is attached),
gas estimation, and the `depositForBurn` submission with a 20% gas buffer.
Any error thrown inside is wrapped by the inner catch as
`Gas estimation failed: ...`. -/
def standardBurnTx (env : Env) (sourceChain : String) (sourceConfig destConfig : ChainConfig)
    (burnAmount : Int) (recipientAddress : String) (useFastTransfer : Bool) :
    List Event × Except String (BurnCall × String) :=
  let pre : List Event × Except String Unit :=
    if env.providerPresent then
      let evs := [Event.allowanceRead env.senderAddress sourceChain,
                  Event.balanceRead env.senderAddress sourceChain]
      if env.rawAllowance < burnAmount then
        (evs, Except.error ("Insufficient allowance for TokenMessenger"))
      else if env.rawBalance < burnAmount then
        (evs, Except.error ("Insufficient balance for burn"))
      else (evs, Except.ok ())
    else ([], Except.ok ())
  match pre with
  | (evs, Except.error m) => (evs, Except.error m)
  | (evs, Except.ok _) =>
    let evs2 := evs ++ [Event.gasEstimateCall]
    match env.estimateGas with
    | Except.error m => (evs2, Except.error m)
    | Except.ok estimatedGas =>
      let call := standardCall sourceConfig destConfig burnAmount recipientAddress
        useFastTransfer estimatedGas
      match env.submitBurn call with
      | Except.error m => (evs2 ++ [Event.burnSubmit call], Except.error m)
      | Except.ok txHash => (evs2 ++ [Event.burnSubmit call], Except.ok (call, txHash))

/-- The three-way burn variant selection of `initiateBurn` (hooks, then fast
finality gated on both chains advertising the capability, then standard),
followed by receipt handling. -/
def burnBranch (env : Env) (sourceChain : String) (sourceConfig destConfig : ChainConfig)
    (burnAmount : Int) (recipientAddress : String) (options : TransferOptions) :
    List Event × Except JsError BurnResult :=
  if strTruthy options.hooks then
    let call := hookCall sourceConfig destConfig burnAmount recipientAddress options
    finishBurn env [Event.burnSubmit call] call sourceConfig.domainId
  else if options.useFastTransfer && sourceConfig.supportsFastTransfer
      && destConfig.supportsFastTransfer then
    let call := fastCall sourceConfig destConfig burnAmount recipientAddress options
    finishBurn env [Event.burnSubmit call] call sourceConfig.domainId
  else
    match standardBurnTx env sourceChain sourceConfig destConfig burnAmount recipientAddress
        options.useFastTransfer with
    | (evs, Except.error m) =>
        (evs, Except.error (JsError.txFailed ("Gas estimation failed: " ++ m)))
    | (evs, Except.ok (_, txHash)) =>
      match extractMessageHashFromReceipt env (env.receiptLogs txHash) with
      | Except.error e => (evs, Except.error (JsError.txFailed (errMessage e)))
      | Except.ok messageHash =>
          (evs, Except.ok { txHash := txHash, messageHash := messageHash,
                            sourceDomain := sourceConfig.domainId })

/-- CCTPService.initiateBurn: chain-pair lookup, amount validation
(`parseUnits(amount, 6)` then the `burnAmount <= 0` guard), formatted
balance and allowance checks, then the three-way burn submission of
`burnBranch`. -/
def initiateBurn (chains : String → Option ChainConfig) (env : Env)
    (sourceChain destinationChain amount recipientAddress : String)
    (options : TransferOptions) : List Event × Except JsError BurnResult :=
  match chains sourceChain, chains destinationChain with
  | some sourceConfig, some destConfig =>
    (match parseUnits6 amount with
     | none => ([], Except.error JsError.parseUnitsError)
     | some burnAmount =>
       if burnAmount ≤ 0 then ([], Except.error JsError.invalidAmount)
       else
         let balance := env.balanceOf env.senderAddress sourceChain
         let evBal := [Event.balanceRead env.senderAddress sourceChain]
         if balance < burnAmount then
           (evBal, Except.error (JsError.insufficientBalance balance burnAmount))
         else
           let allowance := env.allowanceOf env.senderAddress sourceChain
           let evAll := evBal ++ [Event.allowanceRead env.senderAddress sourceChain]
           if allowance < burnAmount then
             (evAll, Except.error (JsError.insufficientAllowance burnAmount))
           else
             let br := burnBranch env sourceChain sourceConfig destConfig burnAmount
               recipientAddress options
             (evAll ++ br.1, br.2))
  | _, _ => ([], Except.error JsError.unsupportedChain)

/-- Hook kinds, from the `HookMetadata` interface of `src/lib/hooks.ts`. -/
inductive HookType
  | REBALANCE
  | NOTIFICATION
  | SWAP
  | CUSTOM
  deriving DecidableEq, Repr

/-- Execution timing of a hook. -/
inductive ExecutionTiming
  | PRE_MINT
  | POST_MINT
  deriving DecidableEq, Repr

/-- Structured hook intent attached to a burn, from `src/lib/hooks.ts`. -/
structure HookMetadata where
  hookType : HookType
  callbackContract : Option String
  callbackData : Option String
  executionTiming : ExecutionTiming
  gasLimit : Option Nat
  deriving DecidableEq, Repr

/-- CCTPHooksService.hookTypeToNumber (the `default: 0` arm of the source
switch is unreachable over the closed enum). -/
def hookTypeToNumber : HookType → Nat
  | HookType.REBALANCE => 1
  | HookType.NOTIFICATION => 2
  | HookType.SWAP => 3
  | HookType.CUSTOM => 4

/-- One lowercase hex digit. -/
def hexDigit (n : Nat) : Char :=
  if n < 10 then Char.ofNat (48 + n) else Char.ofNat (87 + n)

/-- Two lowercase hex digits of a byte. -/
def hexByte (n : Nat) : String :=
  String.mk [hexDigit ((n / 16) % 16), hexDigit (n % 16)]

/-- Four big-endian bytes of a uint32 as lowercase hex. -/
def hexUInt32 (n : Nat) : String :=
  let m := n % 4294967296
  hexByte (m / 16777216) ++ hexByte ((m / 65536) % 256) ++ hexByte ((m / 256) % 256)
    ++ hexByte (m % 256)

/-- CCTPHooksService.encodeHookMetadata: the solidityPacked
`[uint8, uint8, uint32]` encoding of hook type, execution timing (0 for
PRE_MINT, 1 for POST_MINT) and gas limit (`metadata.gasLimit || 300000`),
as the 0x-prefixed hex string ethers returns. -/
def encodeHookMetadata (m : HookMetadata) : String :=
  "0x" ++ hexByte (hookTypeToNumber m.hookType)
    ++ hexByte (match m.executionTiming with
        | ExecutionTiming.PRE_MINT => 0
        | ExecutionTiming.POST_MINT => 1)
    ++ hexUInt32 (jsOr0 m.gasLimit 300000)

/-- Return value of a successful `initiateBurnWithHooks`: the burn result
extended with the derived hook id. -/
structure BurnHookResult where
  txHash : String
  messageHash : String
  sourceDomain : Nat
  hookId : String
  deriving DecidableEq, Repr

/-- CCTPHooksService.initiateBurnWithHooks: encode the hook metadata, force
`useFastTransfer: false` ("Hooks may not be compatible with fast transfer"),
use the hook gas limit (`hookMetadata.gasLimit || 500000`), run the parent
burn, and derive the tracking hook id
`keccak256(solidityPacked([string, string, bytes32], [src, dst, messageHash]))`
(supplied by the environment as `mkHookId`). -/
def hookBurnOptions (hookMetadata : HookMetadata) : TransferOptions :=
  { useFastTransfer := false
    hooks := some (encodeHookMetadata hookMetadata)
    gasLimit := some (jsOr0 hookMetadata.gasLimit 500000) }

/-- CCTPHooksService.initiateBurnWithHooks, continued: run the parent burn
with the hook options and derive the tracking hook id. -/
def initiateBurnWithHooks (chains : String → Option ChainConfig) (env : Env)
    (sourceChain destinationChain amount recipientAddress : String)
    (hookMetadata : HookMetadata) : List Event × Except JsError BurnHookResult :=
  match initiateBurn chains env sourceChain destinationChain amount recipientAddress
      (hookBurnOptions hookMetadata) with
  | (evs, Except.error e) => (evs, Except.error e)
  | (evs, Except.ok r) =>
      (evs, Except.ok { txHash := r.txHash, messageHash := r.messageHash,
                        sourceDomain := r.sourceDomain,
                        hookId := env.mkHookId sourceChain destinationChain r.messageHash })

/-- Outcome of the attestation polling loop: the attestation, or the timeout
error payload (elapsed milliseconds and attempt count, both interpolated
into the thrown message). -/
inductive PollOutcome
  | ok (attestation : String)
  | timeout (elapsedMs : Nat) (attempts : Nat)
  deriving DecidableEq, Repr

/-- One while-iteration step of
`CrossChainTransferService.waitForAttestationWithProgress`, with the 10000 ms
`checkInterval` of the source.  Time is discrete: each iteration advances the
clock by exactly one interval.  The loop is bounded by construction — it runs
at most `maxWaitTime / 10000 + 1` iterations — and that bound is passed as
structural recursion fuel; `waitForAttestationWithProgress` below supplies an
adequate amount, and the exhausted-fuel arm coincides with the loop-condition
exit so the fuel is semantically invisible.  The first component collects the
percentage values passed to the `onProgress` callback, in order. -/
def pollSteps (att : Nat → AttResult) (maxWaitTime : Nat) :
    Nat → Nat → Nat → List ℚ × PollOutcome
  | 0, elapsed, attempts => ([], PollOutcome.timeout elapsed attempts)
  | fuel + 1, elapsed, attempts =>
    if elapsed < maxWaitTime then
      match att attempts with
      | AttResult.ready a => ([100], PollOutcome.ok a)
      | AttResult.clientErr =>
        let p : ℚ := min (((elapsed : ℚ) / (maxWaitTime : ℚ)) * 100) 95
        let rest := pollSteps att maxWaitTime fuel (elapsed + 10000) (attempts + 1)
        (p :: rest.1, rest.2)
      | AttResult.notReady =>
        let p : ℚ := min (((elapsed : ℚ) / (maxWaitTime : ℚ)) * 100) 95
        let rest := pollSteps att maxWaitTime fuel (elapsed + 10000) (attempts + 1)
        (p :: rest.1, rest.2)
    else ([], PollOutcome.timeout elapsed attempts)

/-- CrossChainTransferService.waitForAttestationWithProgress: poll
`getAttestation` every 10 seconds until a non-empty attestation arrives
(report 100% and return it) or `maxWaitTime` elapses (throw the timeout
error carrying elapsed seconds and attempt count); iterations where the
client returns null or throws report
`min((elapsed / maxWaitTime) * 100, 95)` and keep waiting. -/
def waitForAttestationWithProgress (att : Nat → AttResult) (maxWaitTime : Nat) :
    List ℚ × PollOutcome :=
  pollSteps att maxWaitTime (maxWaitTime / 10000 + 1) 0 0

/-- Transfer lifecycle status of `CrossChainTransferResult`. -/
inductive TransferStatus
  | PENDING
  | ATTESTED
  | COMPLETED
  | FAILED
  deriving DecidableEq, Repr

/-- The resumable transfer handle, from the `CrossChainTransferResult`
interface (the observational `estimatedCompletionTime` timestamp is
omitted, per the time conventions above). -/
structure CrossChainTransferResult where
  sourceTransactionHash : String
  messageHash : String
  destinationTransactionHash : Option String
  status : TransferStatus
  attestation : Option String
  hookId : Option String
  deriving DecidableEq, Repr

/-- Per-call options of `CrossChainTransferService.initiateTransfer`. -/
structure InitiateOptions where
  useFastTransfer : Bool
  enableHooks : Bool
  hookMetadata : Option HookMetadata
  deriving DecidableEq, Repr

/-- Failure tail of `initiateTransfer`'s catch block: the FAILED progress
event at 0% with the human-readable message, then the `transfer.failed`
webhook (whose own failures are swallowed). -/
def failTrace (env : Env) (e : JsError) : List Event :=
  Event.progressEmitted Step.FAILED ("Transfer failed: " ++ errMessage e) none 0
    :: sendWebhookEvents env.webhooks ("transfer.failed")

/-- The options the orchestrator passes to the plain (non-hook) burn:
`useFastTransfer` forwarded, `gasLimit: useFastTransfer ? 300000 : 250000`. -/
def plainBurnOptions (options : InitiateOptions) : TransferOptions :=
  { useFastTransfer := options.useFastTransfer
    hooks := none
    gasLimit := some (if options.useFastTransfer then 300000 else 250000) }

/-- The burn step of `initiateTransfer`: the hook-carrying service call when
`options?.enableHooks && options.hookMetadata`, otherwise the plain burn
with `gasLimit: useFastTransfer ? 300000 : 250000`.  Returns the burn
transaction hash, the message hash, and the hook id when one was derived. -/
def orchestratorBurn (chains : String → Option ChainConfig) (env : Env)
    (sourceChain destinationChain amount recipientAddress : String)
    (options : InitiateOptions) :
    List Event × Except JsError (String × String × Option String) :=
  match (if options.enableHooks then options.hookMetadata else none) with
  | some hm =>
    match initiateBurnWithHooks chains env sourceChain destinationChain amount
        recipientAddress hm with
    | (evs, Except.error e) => (evs, Except.error e)
    | (evs, Except.ok r) => (evs, Except.ok (r.txHash, r.messageHash, some r.hookId))
  | none =>
    match initiateBurn chains env sourceChain destinationChain amount recipientAddress
        (plainBurnOptions options) with
    | (evs, Except.error e) => (evs, Except.error e)
    | (evs, Except.ok r) => (evs, Except.ok (r.txHash, r.messageHash, none))

/-- CrossChainTransferService.initiateTransfer (the webhook-instrumented
version): send `transfer.initiated`, emit BURNING at 10% (whose message
reads the source registry entry's `.name` — a TypeError when the key is
unknown), send `transfer.burning`, run the burn step, emit
WAITING_ATTESTATION at 30% and send `transfer.attestation_pending`, poll the
attestation service (15 min fast / 40 min standard) forwarding each report
into the 30–70% band (`30 + percent * 0.4`), emit READY_TO_MINT at 75% and
send `transfer.ready_to_mint`, and return the ATTESTED resumable result.
Any error emits FAILED at 0% and `transfer.failed`, then is re-raised. -/
def initiateTransfer (chains : String → Option ChainConfig) (env : Env)
    (sourceChain destinationChain amount recipientAddress : String)
    (options : InitiateOptions) : List Event × Except JsError CrossChainTransferResult :=
  let evInit := sendWebhookEvents env.webhooks ("transfer.initiated")
  match chains sourceChain with
  | none =>
      (evInit ++ failTrace env JsError.undefinedNameAccess,
       Except.error JsError.undefinedNameAccess)
  | some sourceConfig =>
    let evBurnStart := evInit
      ++ [Event.progressEmitted Step.BURNING
            ("Burning " ++ amount ++ " USDC on " ++ sourceConfig.name ++ "...") none 10]
      ++ sendWebhookEvents env.webhooks ("transfer.burning")
    match orchestratorBurn chains env sourceChain destinationChain amount recipientAddress
        options with
    | (evB, Except.error e) => (evBurnStart ++ evB ++ failTrace env e, Except.error e)
    | (evB, Except.ok (txHash, messageHash, hookId)) =>
      let evAtt := [Event.progressEmitted Step.WAITING_ATTESTATION
            ("Waiting for Circle attestation service...") (some txHash) 30]
        ++ sendWebhookEvents env.webhooks ("transfer.attestation_pending")
      let maxWait := if options.useFastTransfer then 900000 else 2400000
      let poll := waitForAttestationWithProgress env.getAttestation maxWait
      let evPoll := poll.1.map (fun p =>
        Event.progressEmitted Step.WAITING_ATTESTATION
          ("Waiting for Circle attestation service...") (some txHash) (30 + p * (2 / 5)))
      match poll.2 with
      | PollOutcome.timeout e k =>
        let err := JsError.attestationTimeout e k
        (evBurnStart ++ evB ++ evAtt ++ evPoll ++ failTrace env err, Except.error err)
      | PollOutcome.ok attestation =>
        match chains destinationChain with
        | none =>
            (evBurnStart ++ evB ++ evAtt ++ evPoll ++ failTrace env JsError.undefinedNameAccess,
             Except.error JsError.undefinedNameAccess)
        | some destConfig =>
          let evReady := [Event.progressEmitted Step.READY_TO_MINT
                ("Ready to mint USDC on " ++ destConfig.name) none 75]
            ++ sendWebhookEvents env.webhooks ("transfer.ready_to_mint")
          (evBurnStart ++ evB ++ evAtt ++ evPoll ++ evReady,
           Except.ok { sourceTransactionHash := txHash
                       messageHash := messageHash
                       destinationTransactionHash := none
                       status := TransferStatus.ATTESTED
                       attestation := some attestation
                       hookId := hookId })

/-- CrossChainTransferService.getMessageBytes: fetch the raw protocol message
for a hash from the V2 messages endpoint; on any fetch/parse error, or when
the response carries no (or an empty) `messageBytes` field, fall back to the
placeholder bytes 0x. -/
def getMessageBytes (env : Env) (messageHash : String) : List Event × String :=
  ([Event.messageBytesFetch messageHash],
   match env.fetchMessageBytes with
   | Except.error _ => "0x"
   | Except.ok none => "0x"
   | Except.ok (some b) => if b == "" then "0x" else b)

/-- CCTPService.completeMint: submit the mint on the destination
MessageTransmitter, via `receiveMessageUnfinalized` (gas 400000) when
`useUnfinalized` or `receiveMessage` (gas 350000) otherwise; submission
errors are wrapped as `Mint failed: ...`. -/
def completeMint (chains : String → Option ChainConfig) (env : Env)
    (destinationChain messageBytes attestation : String) (useUnfinalized : Bool) :
    List Event × Except JsError String :=
  match chains destinationChain with
  | none => ([], Except.error JsError.unsupportedDestinationChain)
  | some _ =>
    let gas := if useUnfinalized then 400000 else 350000
    let ev := [Event.mintSubmit destinationChain messageBytes attestation useUnfinalized gas]
    match env.submitMint destinationChain messageBytes attestation useUnfinalized with
    | Except.error m => (ev, Except.error (JsError.mintFailed m))
    | Except.ok txHash => (ev, Except.ok txHash)

/-- CrossChainTransferService.completeTransfer: require `result.attestation`
(else throw `Attestation not available`), emit MINTING at 80% (the message
reads the destination registry entry's `.name`), send `transfer.minting`,
resolve the message bytes, call `completeMint` with the `useUnfinalized`
argument hardcoded to `false`, then emit COMPLETED at 100%, send
`transfer.completed`, and return a spread copy of `result` with the
destination hash and COMPLETED status.  On failure emit FAILED at 80% with
`Minting failed: ...` and re-raise. -/
def completeTransfer (chains : String → Option ChainConfig) (env : Env)
    (result : CrossChainTransferResult) (destinationChain : String) :
    List Event × Except JsError CrossChainTransferResult :=
  match result.attestation with
  | none => ([], Except.error JsError.attestationMissing)
  | some attestation =>
    match chains destinationChain with
    | none =>
        ([Event.progressEmitted Step.FAILED
            ("Minting failed: " ++ errMessage JsError.undefinedNameAccess) none 80],
         Except.error JsError.undefinedNameAccess)
    | some destConfig =>
      let ev0 := [Event.progressEmitted Step.MINTING
            ("Minting USDC on " ++ destConfig.name ++ "...") none 80]
        ++ sendWebhookEvents env.webhooks ("transfer.minting")
      let mb := getMessageBytes env result.messageHash
      match completeMint chains env destinationChain mb.2 attestation false with
      | (evM, Except.error e) =>
        (ev0 ++ mb.1 ++ evM
           ++ [Event.progressEmitted Step.FAILED ("Minting failed: " ++ errMessage e) none 80],
         Except.error e)
      | (evM, Except.ok mintTxHash) =>
        let evDone := [Event.progressEmitted Step.COMPLETED
              ("Transfer completed successfully!") (some mintTxHash) 100]
          ++ sendWebhookEvents env.webhooks ("transfer.completed")
        (ev0 ++ mb.1 ++ evM ++ evDone,
         Except.ok { result with destinationTransactionHash := some mintTxHash,
                                 status := TransferStatus.COMPLETED })

/-- Per-merchant automation record, from the `MerchantHookConfig` interface
of `src/lib/hooks.ts`. -/
structure MerchantHookConfig where
  merchantId : String
  webhookUrl : Option String
  rebalanceTarget : Option String
  autoSwapToken : Option String
  customHookContract : Option String
  deriving DecidableEq, Repr

/-- JS truthiness filter for an optional string field: the value when
defined and non-empty, `none` otherwise. -/
def truthyStr : Option String → Option String
  | some s => if s == "" then none else some s
  | none => none

/-- CCTPHooksService.executeNotificationHook: POST the payment notification
to the merchant webhook; fetch failures are caught and logged, never
raised. -/
def executeNotificationHook (webhookUrl : String) : List Event × Except JsError Unit :=
  ([Event.notifyPost webhookUrl], Except.ok ())

/-- The fixed hook metadata `executeRebalanceHook` constructs. -/
def rebalanceHookMetadata : HookMetadata :=
  { hookType := HookType.REBALANCE
    callbackContract := none
    callbackData := none
    executionTiming := ExecutionTiming.POST_MINT
    gasLimit := some 500000 }

/-- CCTPHooksService.executeRebalanceHook: initiate a fresh hook-carrying
burn from the payment destination chain to the merchant's rebalance target,
with the signer's own address as recipient, and return its hook id. -/
def executeRebalanceHook (chains : String → Option ChainConfig) (env : Env)
    (destinationChain targetChain amount : String) : List Event × Except JsError String :=
  match initiateBurnWithHooks chains env destinationChain targetChain amount
      env.senderAddress rebalanceHookMetadata with
  | (evs, Except.error e) => (evs, Except.error e)
  | (evs, Except.ok r) => (evs, Except.ok r.hookId)

/-- CCTPHooksService.executeSwapHook: parse the amount (`parseUnits` throws
on a malformed string) and return the derived swap hook id
`keccak256(solidityPacked([string, address, uint256], [SWAP_HOOK, token, units]))`
(supplied by the environment as `mkSwapId`); the DEX execution itself is a
stub in the source. -/
def executeSwapHook (env : Env) (amount targetToken : String) :
    List Event × Except JsError String :=
  match parseUnits6 amount with
  | none => ([], Except.error JsError.parseUnitsError)
  | some units => ([], Except.ok (env.mkSwapId targetToken units))

/-- MerchantHookManager.processPaymentHooks: look up the merchant config
(no config: empty result), then sequentially run the configured hooks in the
fixed order notify, rebalance, swap, accumulating their tags. -/
def processPaymentHooks (chains : String → Option ChainConfig) (env : Env)
    (getConfig : String → Option MerchantHookConfig)
    (merchantId amount destinationChain : String) :
    List Event × Except JsError (List String) :=
  match getConfig merchantId with
  | none => ([], Except.ok [])
  | some config =>
    let notifyStep : List Event × List String :=
      match truthyStr config.webhookUrl with
      | some url => ((executeNotificationHook url).1, ["NOTIFICATION"])
      | none => ([], [])
    match truthyStr config.rebalanceTarget with
    | some target =>
      match executeRebalanceHook chains env destinationChain target amount with
      | (evR, Except.error e) => (notifyStep.1 ++ evR, Except.error e)
      | (evR, Except.ok rebalanceId) =>
        match truthyStr config.autoSwapToken with
        | some token =>
          match executeSwapHook env amount token with
          | (evS, Except.error e) => (notifyStep.1 ++ evR ++ evS, Except.error e)
          | (evS, Except.ok swapId) =>
            (notifyStep.1 ++ evR ++ evS,
             Except.ok (notifyStep.2 ++ [("REBALANCE:" ++ rebalanceId), ("SWAP:" ++ swapId)]))
        | none =>
          (notifyStep.1 ++ evR, Except.ok (notifyStep.2 ++ [("REBALANCE:" ++ rebalanceId)]))
    | none =>
      match truthyStr config.autoSwapToken with
      | some token =>
        match executeSwapHook env amount token with
        | (evS, Except.error e) => (notifyStep.1 ++ evS, Except.error e)
        | (evS, Except.ok swapId) =>
          (notifyStep.1 ++ evS, Except.ok (notifyStep.2 ++ [("SWAP:" ++ swapId)]))
      | none => (notifyStep.1, Except.ok notifyStep.2)

/-- When the client never returns a non-empty attestation, every iteration
of the polling loop keeps waiting, advancing the clock by one interval, and
the loop exits through the time-bound check with the timeout payload.
Stated for an arbitrary starting point of the loop, by induction on the
structural fuel (which the hypotheses keep adequate). -/
theorem pollSteps_timeout_aux (att : Nat → AttResult) (T : Nat)
    (h : ∀ n a, att n ≠ AttResult.ready a) :
    ∀ fuel elapsed attempts, T ≤ elapsed + 10000 * fuel → elapsed < T + 10000 →
      ∃ k, (pollSteps att T fuel elapsed attempts).2
            = PollOutcome.timeout (elapsed + 10000 * k) (attempts + k)
        ∧ elapsed + 10000 * k < T + 10000 := by
  intro fuel
  induction fuel with
  | zero =>
    intro elapsed attempts hT hE
    exact ⟨0, by simp [pollSteps], by omega⟩
  | succ fuel ih =>
    intro elapsed attempts hT hE
    by_cases he : elapsed < T
    · have hT' : T ≤ (elapsed + 10000) + 10000 * fuel := by omega
      have hE' : elapsed + 10000 < T + 10000 := by omega
      obtain ⟨k, hk, hb⟩ := ih (elapsed + 10000) (attempts + 1) hT' hE'
      cases hcase : att attempts with
      | ready a => exact absurd hcase (h attempts a)
      | clientErr =>
        refine ⟨k + 1, ?_, by omega⟩
        have hstep : (pollSteps att T (fuel + 1) elapsed attempts).2
            = (pollSteps att T fuel (elapsed + 10000) (attempts + 1)).2 := by
          simp [pollSteps, he, hcase]
        rw [hstep, hk]
        congr 1 <;> omega
      | notReady =>
        refine ⟨k + 1, ?_, by omega⟩
        have hstep : (pollSteps att T (fuel + 1) elapsed attempts).2
            = (pollSteps att T fuel (elapsed + 10000) (attempts + 1)).2 := by
          simp [pollSteps, he, hcase]
        rw [hstep, hk]
        congr 1 <;> omega
    · refine ⟨0, ?_, by omega⟩
      simp [pollSteps, he]

/-- C4: for every message id and bound maxWaitTime = T, when the attestation
client never returns a non-empty attestation (each call returns null or
throws a transient error, which the loop swallows), the attestation-wait
loop terminates within T plus one 10-second poll interval and exits with the
timeout error, carrying the elapsed time (10000·k ms for its k iterations)
and the attempt count k; no client error surfaces as the outcome. -/
theorem waitForAttestation_timeout_bound (att : Nat → AttResult) (maxWaitTime : Nat)
    (h : ∀ n a, att n ≠ AttResult.ready a) :
    ∃ k, (waitForAttestationWithProgress att maxWaitTime).2
          = PollOutcome.timeout (10000 * k) k
      ∧ 10000 * k < maxWaitTime + 10000 := by
  obtain ⟨k, hk, hb⟩ :=
    pollSteps_timeout_aux att maxWaitTime h (maxWaitTime / 10000 + 1) 0 0 (by omega) (by omega)
  exact ⟨k, by simpa [waitForAttestationWithProgress] using hk, by omega⟩

/-- Witness for the timeout bound: a client that always answers not-ready,
with a 25-second budget, times out at 30000 ms after 3 attempts. -/
theorem waitForAttestation_timeout_bound_witness :
    (∀ n a, (fun (_ : Nat) => AttResult.notReady) n ≠ AttResult.ready a)
    ∧ ∃ k, (waitForAttestationWithProgress (fun _ => AttResult.notReady) 25000).2
          = PollOutcome.timeout (10000 * k) k
      ∧ 10000 * k < 25000 + 10000 :=
  ⟨(fun n a h => by cases h),
   waitForAttestation_timeout_bound (fun _ => AttResult.notReady) 25000
     (fun n a h => by cases h)⟩

/-- Characterisation of a successful polling run, stated from an arbitrary
iteration m of the loop: when the first non-empty attestation arrives at
iteration m + k (inside the time budget, with adequate fuel), the loop
reports the capped linear progress value once per not-ready iteration and
then exactly one 100, returning the attestation. -/
theorem pollSteps_success_aux (att : Nat → AttResult) (T : Nat) (a : String) :
    ∀ k m fuel, (∀ j, j < k → ∀ b, att (m + j) ≠ AttResult.ready b) →
      att (m + k) = AttResult.ready a → 10000 * (m + k) < T → k < fuel →
      pollSteps att T fuel (10000 * m) m
        = ((List.range k).map
              (fun j => min (((10000 * (m + j) : ℕ) : ℚ) / (T : ℚ) * 100) 95)
            ++ [100], PollOutcome.ok a) := by
  intro k
  induction k with
  | zero =>
    intro m fuel hj hk hT hf
    match fuel, hf with
    | fuel + 1, _ =>
      have hcond : 10000 * m < T := by omega
      have hm : att m = AttResult.ready a := by simpa using hk
      simp [pollSteps, hcond, hm]
  | succ k ih =>
    intro m fuel hj hk hT hf
    match fuel, hf with
    | fuel + 1, hf =>
      have hcond : 10000 * m < T := by omega
      have hm : ∀ b, att m ≠ AttResult.ready b := by
        intro b
        have := hj 0 (by omega) b
        simpa using this
      have ihh := ih (m + 1) fuel
        (by
          intro j hjk b
          have := hj (j + 1) (by omega) b
          have harg : m + (j + 1) = m + 1 + j := by omega
          rwa [harg] at this)
        (by
          have harg : m + (k + 1) = m + 1 + k := by omega
          rwa [harg] at hk)
        (by omega)
        (by omega)
      have hlist : (List.range (k + 1)).map
            (fun j => min (((10000 * (m + j) : ℕ) : ℚ) / (T : ℚ) * 100) 95)
          = min (((10000 * m : ℕ) : ℚ) / (T : ℚ) * 100) 95
            :: (List.range k).map
              (fun j => min (((10000 * (m + 1 + j) : ℕ) : ℚ) / (T : ℚ) * 100) 95) := by
        rw [List.range_succ_eq_map, List.map_cons, List.map_map]
        refine congrArg₂ _ (by simp) ?_
        refine List.map_congr_left ?_
        intro j _
        have harg : m + (j + 1) = m + 1 + j := by omega
        simp [Function.comp, harg]
      cases hcase : att m with
      | ready b => exact absurd hcase (hm b)
      | clientErr =>
        have harith : 10000 * m + 10000 = 10000 * (m + 1) := by ring
        rw [pollSteps]
        simp only [hcond, if_pos, hcase]
        rw [harith, ihh, hlist]
        simp
      | notReady =>
        have harith : 10000 * m + 10000 = 10000 * (m + 1) := by ring
        rw [pollSteps]
        simp only [hcond, if_pos, hcase]
        rw [harith, ihh, hlist]
        simp

/-- C5: on the first polling iteration k at which the client returns a
non-empty attestation (within the time budget), the loop returns that
attestation immediately; its report list is exactly one capped linear value
min((elapsed / maxWaitTime)·100, 95) per earlier iteration — each at most 95,
hence strictly below 100 — followed by a single 100, so 100 is reported
exactly once. -/
theorem waitForAttestation_success_reports (att : Nat → AttResult)
    (maxWaitTime k : Nat) (a : String)
    (hbefore : ∀ j, j < k → ∀ b, att j ≠ AttResult.ready b)
    (hk : att k = AttResult.ready a)
    (hT : 10000 * k < maxWaitTime) :
    waitForAttestationWithProgress att maxWaitTime
      = ((List.range k).map
            (fun j => min (((10000 * j : ℕ) : ℚ) / (maxWaitTime : ℚ) * 100) 95)
          ++ [100], PollOutcome.ok a)
    ∧ (∀ p ∈ (List.range k).map
          (fun j => min (((10000 * j : ℕ) : ℚ) / (maxWaitTime : ℚ) * 100) 95), p ≤ 95)
    ∧ (waitForAttestationWithProgress att maxWaitTime).1.count 100 = 1 := by
  have hmain := pollSteps_success_aux att maxWaitTime a k 0 (maxWaitTime / 10000 + 1)
    (by simpa using hbefore) (by simpa using hk) (by omega) (by omega)
  have hmain' : waitForAttestationWithProgress att maxWaitTime
      = ((List.range k).map
            (fun j => min (((10000 * j : ℕ) : ℚ) / (maxWaitTime : ℚ) * 100) 95)
          ++ [100], PollOutcome.ok a) := by
    simpa [waitForAttestationWithProgress] using hmain
  refine ⟨hmain', ?_, ?_⟩
  · intro p hp
    obtain ⟨j, _, hj⟩ := List.mem_map.1 hp
    rw [← hj]
    exact min_le_right _ _
  · rw [hmain']
    have hnot : (100 : ℚ) ∉ (List.range k).map
        (fun j => min (((10000 * j : ℕ) : ℚ) / (maxWaitTime : ℚ) * 100) 95) := by
      intro hmem
      obtain ⟨j, _, hj⟩ := List.mem_map.1 hmem
      have hle : min (((10000 * j : ℕ) : ℚ) / (maxWaitTime : ℚ) * 100) 95 ≤ 95 :=
        min_le_right _ _
      rw [hj] at hle
      norm_num at hle
    rw [List.count_append, List.count_eq_zero.2 hnot]
    simp

/-- Witness for the success characterisation: a client that is not ready
twice and then answers, under the standard 2400000 ms budget, reports
[0, 5/12] and then a single 100 and returns the attestation. -/
theorem waitForAttestation_success_reports_witness :
    ((fun (n : Nat) => if n < 2 then AttResult.notReady else AttResult.ready ("0xa")) 2
        = AttResult.ready ("0xa"))
    ∧ 10000 * 2 < 2400000
    ∧ (waitForAttestationWithProgress
          (fun n => if n < 2 then AttResult.notReady else AttResult.ready ("0xa")) 2400000
        = ((List.range 2).map
              (fun j => min (((10000 * j : ℕ) : ℚ) / (2400000 : ℚ) * 100) 95)
            ++ [100], PollOutcome.ok ("0xa"))
      ∧ (∀ p ∈ (List.range 2).map
            (fun j => min (((10000 * j : ℕ) : ℚ) / (2400000 : ℚ) * 100) 95), p ≤ 95)
      ∧ (waitForAttestationWithProgress
            (fun n => if n < 2 then AttResult.notReady else AttResult.ready ("0xa"))
            2400000).1.count 100 = 1) :=
  ⟨by norm_num, by norm_num,
   waitForAttestation_success_reports
     (fun n => if n < 2 then AttResult.notReady else AttResult.ready ("0xa")) 2400000 2 ("0xa")
     (by
        intro j hj b
        interval_cases j <;> simp)
     (by norm_num)
     (by norm_num)⟩

/-- A receipt whose logs all fail to parse as `MessageSent` makes the
extraction throw `MessageSent event not found in transaction receipt`. -/
theorem extractMessageHash_all_other (env : Env) (logs : List ReceiptLog)
    (h : ∀ l ∈ logs, l = ReceiptLog.other) :
    extractMessageHashFromReceipt env logs = Except.error JsError.messageNotFound := by
  unfold extractMessageHashFromReceipt
  have hfind : logs.findSome? (fun l =>
      match l with
      | ReceiptLog.messageSent m => some m
      | ReceiptLog.other => none) = none := by
    induction logs with
    | nil => rfl
    | cons hd tl ih =>
      have hhd := h hd (by simp)
      rw [List.findSome?_cons]
      rw [hhd]
      exact ih (fun l hl => h l (by simp [hl]))
  rw [hfind]

/-- The encoded hook payload always starts with 0x, so it is never the empty
string and is truthy in the `if (options.hooks)` branch test. -/
theorem strTruthy_encodeHookMetadata (m : HookMetadata) :
    strTruthy (some (encodeHookMetadata m)) = true := by
  unfold strTruthy encodeHookMetadata
  simp only [Bool.not_eq_true']
  rw [beq_eq_false_iff_ne]
  intro h
  have hd := congrArg String.data h
  simp [String.data_append] at hd

/-- Webhook fan-out produces only webhookDelivery events. -/
theorem burnSubmit_not_mem_sendWebhookEvents (c : BurnCall) (ws : List WebhookConfig)
    (e : String) : Event.burnSubmit c ∉ sendWebhookEvents ws e := by
  unfold sendWebhookEvents
  intro h
  obtain ⟨w, _, hw⟩ := List.mem_map.1 h
  cases hw

/-- The failure tail produces only a progress event and webhook deliveries. -/
theorem burnSubmit_not_mem_failTrace (c : BurnCall) (env : Env) (e : JsError) :
    Event.burnSubmit c ∉ failTrace env e := by
  unfold failTrace
  intro h
  rcases List.mem_cons.1 h with h | h
  · cases h
  · exact burnSubmit_not_mem_sendWebhookEvents c env.webhooks ("transfer.failed") h

/-- Inversion for the standard branch: any burn submitted by it is the
standard `depositForBurn` call — no hook data, maxFee 500, finality
threshold read from the requested fast flag, estimate-buffered gas — and
when that submission succeeds the branch returns the call and its
transaction hash. -/
theorem standardBurnTx_inv (env : Env) (sourceChain : String)
    (sourceConfig destConfig : ChainConfig) (burnAmount : Int) (recipientAddress : String)
    (useFastTransfer : Bool) (c : BurnCall)
    (hmem : Event.burnSubmit c ∈ (standardBurnTx env sourceChain sourceConfig destConfig
        burnAmount recipientAddress useFastTransfer).1) :
    c.branch = BurnBranch.standard ∧ c.hookData = none ∧ c.maxFee = some 500
    ∧ c.minFinalityThreshold = some (if useFastTransfer then 1000 else 0)
    ∧ ∀ h, env.submitBurn c = Except.ok h →
        (standardBurnTx env sourceChain sourceConfig destConfig burnAmount recipientAddress
          useFastTransfer).2 = Except.ok (c, h) := by
  by_cases hpp : env.providerPresent
  · by_cases hra : env.rawAllowance < burnAmount
    · simp [standardBurnTx, hpp, hra] at hmem
    · by_cases hrb : env.rawBalance < burnAmount
      · simp [standardBurnTx, hpp, hra, hrb] at hmem
      · cases hest : env.estimateGas with
        | error m => simp [standardBurnTx, hpp, hra, hrb, hest] at hmem
        | ok g =>
          cases hsub : env.submitBurn (standardCall sourceConfig destConfig burnAmount
              recipientAddress useFastTransfer g) with
          | error m =>
            simp [standardBurnTx, hpp, hra, hrb, hest, hsub] at hmem
            subst hmem
            refine ⟨rfl, rfl, rfl, rfl, ?_⟩
            intro h hok
            rw [hok] at hsub
            cases hsub
          | ok txh =>
            simp [standardBurnTx, hpp, hra, hrb, hest, hsub] at hmem
            subst hmem
            refine ⟨rfl, rfl, rfl, rfl, ?_⟩
            intro h hok
            rw [hok] at hsub
            cases hsub
            simp [standardBurnTx, hpp, hra, hrb, hest, hok]
  · cases hest : env.estimateGas with
    | error m => simp [standardBurnTx, hpp, hest] at hmem
    | ok g =>
      cases hsub : env.submitBurn (standardCall sourceConfig destConfig burnAmount
          recipientAddress useFastTransfer g) with
      | error m =>
        simp [standardBurnTx, hpp, hest, hsub] at hmem
        subst hmem
        refine ⟨rfl, rfl, rfl, rfl, ?_⟩
        intro h hok
        rw [hok] at hsub
        cases hsub
      | ok txh =>
        simp [standardBurnTx, hpp, hest, hsub] at hmem
        subst hmem
        refine ⟨rfl, rfl, rfl, rfl, ?_⟩
        intro h hok
        rw [hok] at hsub
        cases hsub
        simp [standardBurnTx, hpp, hest, hok]

/-- The trace of `finishBurn` is exactly the events passed to it. -/
theorem finishBurn_fst (env : Env) (evs : List Event) (call : BurnCall) (dom : Nat) :
    (finishBurn env evs call dom).1 = evs := by
  unfold finishBurn
  split
  · rfl
  · split <;> rfl

/-- When the submission succeeds but the receipt has no `MessageSent` log,
`finishBurn` throws the wrapped message-not-found error. -/
theorem finishBurn_noMessageSent (env : Env) (evs : List Event) (call : BurnCall) (dom : Nat)
    (h : String) (hsub : env.submitBurn call = Except.ok h)
    (hlogs : ∀ l ∈ env.receiptLogs h, l = ReceiptLog.other) :
    (finishBurn env evs call dom).2
      = Except.error (JsError.txFailed (errMessage JsError.messageNotFound)) := by
  unfold finishBurn
  rw [hsub]
  simp [extractMessageHash_all_other env (env.receiptLogs h) hlogs]

/-- Inversion for the hook arm of the three-way burn selection: with a
truthy hook payload, the (only possible) submitted burn is the
`depositForBurnWithHook` call carrying that payload. -/
theorem burnBranch_hook_inv (env : Env) (sourceChain : String)
    (sourceConfig destConfig : ChainConfig) (burnAmount : Int) (recipientAddress : String)
    (options : TransferOptions) (c : BurnCall)
    (hhook : strTruthy options.hooks = true)
    (hmem : Event.burnSubmit c ∈ (burnBranch env sourceChain sourceConfig destConfig
        burnAmount recipientAddress options).1) :
    c = hookCall sourceConfig destConfig burnAmount recipientAddress options := by
  unfold burnBranch at hmem
  rw [if_pos hhook] at hmem
  simp only [finishBurn_fst] at hmem
  simpa using hmem

/-- Inversion for the capability-gated fallback: with no hook payload and
the fast gate false (fast not requested, or either chain lacking the
capability), the submitted burn is the standard call — whose finality
threshold still reads the requested fast flag. -/
theorem burnBranch_gate_inv (env : Env) (sourceChain : String)
    (sourceConfig destConfig : ChainConfig) (burnAmount : Int) (recipientAddress : String)
    (options : TransferOptions) (c : BurnCall)
    (hhook : strTruthy options.hooks = false)
    (hgate : (options.useFastTransfer && sourceConfig.supportsFastTransfer
        && destConfig.supportsFastTransfer) = false)
    (hmem : Event.burnSubmit c ∈ (burnBranch env sourceChain sourceConfig destConfig
        burnAmount recipientAddress options).1) :
    c.branch = BurnBranch.standard ∧ c.hookData = none ∧ c.maxFee = some 500
    ∧ c.minFinalityThreshold = some (if options.useFastTransfer then 1000 else 0) := by
  unfold burnBranch at hmem
  rw [if_neg (by simp [hhook]), if_neg (by simp [hgate])] at hmem
  have hmem' : Event.burnSubmit c ∈ (standardBurnTx env sourceChain sourceConfig destConfig
      burnAmount recipientAddress options.useFastTransfer).1 := by
    rcases hstx : standardBurnTx env sourceChain sourceConfig destConfig burnAmount
        recipientAddress options.useFastTransfer with ⟨evs, res⟩
    rw [hstx] at hmem
    cases res with
    | error m => simpa using hmem
    | ok p =>
      rcases p with ⟨cl, txh⟩
      cases hex : extractMessageHashFromReceipt env (env.receiptLogs txh) with
      | error e => simpa [hex] using hmem
      | ok mh => simpa [hex] using hmem
  obtain ⟨h1, h2, h3, h4, _⟩ := standardBurnTx_inv env sourceChain sourceConfig destConfig
    burnAmount recipientAddress options.useFastTransfer c hmem'
  exact ⟨h1, h2, h3, h4⟩

/-- Whichever arm submitted the burn, a successful submission whose receipt
carries no `MessageSent` log makes the whole selection fail with the wrapped
message-not-found error. -/
theorem burnBranch_noMessageSent (env : Env) (sourceChain : String)
    (sourceConfig destConfig : ChainConfig) (burnAmount : Int) (recipientAddress : String)
    (options : TransferOptions) (c : BurnCall) (h : String)
    (hmem : Event.burnSubmit c ∈ (burnBranch env sourceChain sourceConfig destConfig
        burnAmount recipientAddress options).1)
    (hsub : env.submitBurn c = Except.ok h)
    (hlogs : ∀ l ∈ env.receiptLogs h, l = ReceiptLog.other) :
    (burnBranch env sourceChain sourceConfig destConfig burnAmount recipientAddress
        options).2
      = Except.error (JsError.txFailed (errMessage JsError.messageNotFound)) := by
  unfold burnBranch at hmem ⊢
  by_cases hhook : strTruthy options.hooks
  · rw [if_pos hhook] at hmem ⊢
    simp only [finishBurn_fst] at hmem
    have hc : c = hookCall sourceConfig destConfig burnAmount recipientAddress options := by
      simpa using hmem
    exact finishBurn_noMessageSent env _ _ sourceConfig.domainId h (hc ▸ hsub) hlogs
  · rw [if_neg hhook] at hmem ⊢
    by_cases hgate : (options.useFastTransfer && sourceConfig.supportsFastTransfer
        && destConfig.supportsFastTransfer) = true
    · rw [if_pos hgate] at hmem ⊢
      simp only [finishBurn_fst] at hmem
      have hc : c = fastCall sourceConfig destConfig burnAmount recipientAddress options := by
        simpa using hmem
      exact finishBurn_noMessageSent env _ _ sourceConfig.domainId h (hc ▸ hsub) hlogs
    · rw [if_neg hgate] at hmem ⊢
      have hmem' : Event.burnSubmit c ∈ (standardBurnTx env sourceChain sourceConfig destConfig
          burnAmount recipientAddress options.useFastTransfer).1 := by
        rcases hstx : standardBurnTx env sourceChain sourceConfig destConfig burnAmount
            recipientAddress options.useFastTransfer with ⟨evs, res⟩
        rw [hstx] at hmem
        cases res with
        | error m => simpa using hmem
        | ok p =>
          rcases p with ⟨cl, txh⟩
          cases hex : extractMessageHashFromReceipt env (env.receiptLogs txh) with
          | error e => simpa [hex] using hmem
          | ok mh => simpa [hex] using hmem
      obtain ⟨_, _, _, _, h5⟩ := standardBurnTx_inv env sourceChain sourceConfig destConfig
        burnAmount recipientAddress options.useFastTransfer c hmem'
      have hres := h5 h hsub
      rcases hstx : standardBurnTx env sourceChain sourceConfig destConfig burnAmount
          recipientAddress options.useFastTransfer with ⟨evs, res⟩
      rw [hstx] at hres
      simp only at hres
      rw [hres]
      simp [extractMessageHash_all_other env (env.receiptLogs h) hlogs]

/-- Inversion for `initiateBurn`: a submitted burn implies both chains
resolved, the amount parsed, and the submission came from the three-way
selection, whose verdict is also the verdict of `initiateBurn`. -/
theorem initiateBurn_inv (chains : String → Option ChainConfig) (env : Env)
    (sourceChain destinationChain amount recipientAddress : String)
    (options : TransferOptions) (c : BurnCall)
    (hmem : Event.burnSubmit c ∈ (initiateBurn chains env sourceChain destinationChain amount
        recipientAddress options).1) :
    ∃ sourceConfig destConfig burnAmount,
      chains sourceChain = some sourceConfig ∧ chains destinationChain = some destConfig
      ∧ parseUnits6 amount = some burnAmount
      ∧ Event.burnSubmit c ∈ (burnBranch env sourceChain sourceConfig destConfig burnAmount
          recipientAddress options).1
      ∧ (initiateBurn chains env sourceChain destinationChain amount recipientAddress
          options).2
        = (burnBranch env sourceChain sourceConfig destConfig burnAmount recipientAddress
            options).2 := by
  cases hcs : chains sourceChain with
  | none => simp [initiateBurn, hcs] at hmem
  | some sourceConfig =>
    cases hcd : chains destinationChain with
    | none => simp [initiateBurn, hcs, hcd] at hmem
    | some destConfig =>
      cases hp : parseUnits6 amount with
      | none => simp [initiateBurn, hcs, hcd, hp] at hmem
      | some v =>
        by_cases hv : v ≤ 0
        · simp [initiateBurn, hcs, hcd, hp, hv] at hmem
        · by_cases hb : env.balanceOf env.senderAddress sourceChain < v
          · simp [initiateBurn, hcs, hcd, hp, hv, hb] at hmem
          · by_cases ha : env.allowanceOf env.senderAddress sourceChain < v
            · simp [initiateBurn, hcs, hcd, hp, hv, hb, ha] at hmem
            · refine ⟨sourceConfig, destConfig, v, rfl, rfl, rfl, ?_, ?_⟩
              · simp [initiateBurn, hcs, hcd, hp, hv, hb, ha] at hmem
                exact hmem
              · simp [initiateBurn, hcs, hcd, hp, hv, hb, ha]

/-- With both chains supported, a malformed amount makes `initiateBurn`
throw the ethers parse error, and a non-positive parsed amount the
`Invalid amount` error — in both cases before any event. -/
theorem initiateBurn_invalid_amount (chains : String → Option ChainConfig) (env : Env)
    (sourceChain destinationChain amount recipientAddress : String)
    (options : TransferOptions) (cs cd : ChainConfig)
    (hcs : chains sourceChain = some cs) (hcd : chains destinationChain = some cd) :
    (parseUnits6 amount = none →
      initiateBurn chains env sourceChain destinationChain amount recipientAddress options
        = ([], Except.error JsError.parseUnitsError))
    ∧ ∀ v, parseUnits6 amount = some v → v ≤ 0 →
      initiateBurn chains env sourceChain destinationChain amount recipientAddress options
        = ([], Except.error JsError.invalidAmount) := by
  constructor
  · intro hp
    simp [initiateBurn, hcs, hcd, hp]
  · intro v hp hv
    simp [initiateBurn, hcs, hcd, hp, hv]

/-- The hook-service wrapper neither adds events nor changes the failure
verdict of the underlying burn. -/
theorem initiateBurnWithHooks_fst (chains : String → Option ChainConfig) (env : Env)
    (sourceChain destinationChain amount recipientAddress : String) (hm : HookMetadata) :
    (initiateBurnWithHooks chains env sourceChain destinationChain amount recipientAddress
        hm).1
      = (initiateBurn chains env sourceChain destinationChain amount recipientAddress
          (hookBurnOptions hm)).1 := by
  unfold initiateBurnWithHooks
  rcases hib : initiateBurn chains env sourceChain destinationChain amount recipientAddress
      (hookBurnOptions hm) with ⟨evs, res⟩
  cases res with
  | error e => simp
  | ok r => simp

/-- Every burn submitted during `initiateTransfer` comes from its burn step:
the surrounding progress events, webhook deliveries and polling reports
contain no contract submission. -/
theorem burnSubmit_mem_initiateTransfer (chains : String → Option ChainConfig) (env : Env)
    (sourceChain destinationChain amount recipientAddress : String)
    (options : InitiateOptions) (c : BurnCall)
    (hmem : Event.burnSubmit c ∈ (initiateTransfer chains env sourceChain destinationChain
        amount recipientAddress options).1) :
    Event.burnSubmit c ∈ (orchestratorBurn chains env sourceChain destinationChain amount
        recipientAddress options).1 := by
  unfold initiateTransfer at hmem
  cases hcs : chains sourceChain with
  | none =>
    simp [hcs, sendWebhookEvents, failTrace] at hmem
  | some cfg =>
    rcases hob : orchestratorBurn chains env sourceChain destinationChain amount
        recipientAddress options with ⟨evB, res⟩
    cases res with
    | error e =>
      simp [hcs, hob, sendWebhookEvents, failTrace] at hmem
      simpa using hmem
    | ok t =>
      rcases t with ⟨txh, mh, hid⟩
      rcases hpoll : waitForAttestationWithProgress env.getAttestation
          (if options.useFastTransfer then 900000 else 2400000) with ⟨reports, out⟩
      cases out with
      | timeout e k =>
        simp [hcs, hob, hpoll, sendWebhookEvents, failTrace] at hmem
        simpa using hmem
      | ok att =>
        cases hcd : chains destinationChain with
        | none =>
          simp [hcs, hob, hpoll, hcd, sendWebhookEvents, failTrace] at hmem
          simpa using hmem
        | some dcfg =>
          simp [hcs, hob, hpoll, hcd, sendWebhookEvents, failTrace] at hmem
          simpa using hmem

/-- When the hook selector fires, the burn step is the hook-service burn:
same trace, and failure verdicts propagate unchanged. -/
theorem orchestratorBurn_hook_eq (chains : String → Option ChainConfig) (env : Env)
    (sourceChain destinationChain amount recipientAddress : String)
    (options : InitiateOptions) (hm : HookMetadata)
    (hsel : (if options.enableHooks then options.hookMetadata else none) = some hm) :
    (orchestratorBurn chains env sourceChain destinationChain amount recipientAddress
        options).1
      = (initiateBurn chains env sourceChain destinationChain amount recipientAddress
          (hookBurnOptions hm)).1
    ∧ ∀ e, (initiateBurn chains env sourceChain destinationChain amount recipientAddress
          (hookBurnOptions hm)).2 = Except.error e →
        (orchestratorBurn chains env sourceChain destinationChain amount recipientAddress
            options).2 = Except.error e := by
  rcases hib : initiateBurn chains env sourceChain destinationChain amount recipientAddress
      (hookBurnOptions hm) with ⟨evs, res⟩
  cases res with
  | error e0 =>
    constructor
    · simp [orchestratorBurn, hsel, initiateBurnWithHooks, hib]
    · intro e he
      simp at he
      subst he
      simp [orchestratorBurn, hsel, initiateBurnWithHooks, hib]
  | ok r =>
    constructor
    · simp [orchestratorBurn, hsel, initiateBurnWithHooks, hib]
    · intro e he
      simp at he

/-- When the hook selector does not fire, the burn step is the plain burn:
same trace, and failure verdicts propagate unchanged. -/
theorem orchestratorBurn_plain_eq (chains : String → Option ChainConfig) (env : Env)
    (sourceChain destinationChain amount recipientAddress : String)
    (options : InitiateOptions)
    (hsel : (if options.enableHooks then options.hookMetadata else none) = none) :
    (orchestratorBurn chains env sourceChain destinationChain amount recipientAddress
        options).1
      = (initiateBurn chains env sourceChain destinationChain amount recipientAddress
          (plainBurnOptions options)).1
    ∧ ∀ e, (initiateBurn chains env sourceChain destinationChain amount recipientAddress
          (plainBurnOptions options)).2 = Except.error e →
        (orchestratorBurn chains env sourceChain destinationChain amount recipientAddress
            options).2 = Except.error e := by
  rcases hib : initiateBurn chains env sourceChain destinationChain amount recipientAddress
      (plainBurnOptions options) with ⟨evs, res⟩
  cases res with
  | error e0 =>
    constructor
    · simp [orchestratorBurn, hsel, hib]
    · intro e he
      simp at he
      subst he
      simp [orchestratorBurn, hsel, hib]
  | ok r =>
    constructor
    · simp [orchestratorBurn, hsel, hib]
    · intro e he
      simp at he

/-- C1: for every call to the orchestrator's initiateTransfer in which a
hook payload is supplied (enableHooks set and hookMetadata present), every
burn it submits is the hook-carrying depositForBurnWithHook variant carrying
the encoded payload, irrespective of the useFastTransfer flag (the options,
including that flag, are universally quantified); in particular the
fast-finality burn variant is never selected when a hook payload is
present. -/
theorem initiateTransfer_hook_precedence (chains : String → Option ChainConfig) (env : Env)
    (sourceChain destinationChain amount recipientAddress : String)
    (options : InitiateOptions) (hm : HookMetadata)
    (hEnable : options.enableHooks = true)
    (hMeta : options.hookMetadata = some hm) :
    ∀ c, Event.burnSubmit c ∈ (initiateTransfer chains env sourceChain destinationChain
        amount recipientAddress options).1 →
      c.branch = BurnBranch.withHook ∧ c.hookData = some (encodeHookMetadata hm)
      ∧ c.branch ≠ BurnBranch.fastV2 := by
  intro c hc
  have hc1 := burnSubmit_mem_initiateTransfer chains env sourceChain destinationChain amount
    recipientAddress options c hc
  have hsel : (if options.enableHooks then options.hookMetadata else none) = some hm := by
    rw [hEnable, hMeta]
    simp
  rw [(orchestratorBurn_hook_eq chains env sourceChain destinationChain amount
    recipientAddress options hm hsel).1] at hc1
  obtain ⟨cs, cd, v, _, _, _, hmem, _⟩ := initiateBurn_inv chains env sourceChain
    destinationChain amount recipientAddress (hookBurnOptions hm) c hc1
  have hhook : strTruthy (hookBurnOptions hm).hooks = true := strTruthy_encodeHookMetadata hm
  have hcall := burnBranch_hook_inv env sourceChain cs cd v recipientAddress
    (hookBurnOptions hm) c hhook hmem
  rw [hcall]
  refine ⟨rfl, rfl, ?_⟩
  simp [hookCall]

/-- A concrete webhook registration used by witnesses and counterexamples. -/
def demoWebhook : WebhookConfig :=
  { url := "https://example.com/hook"
    events := [("transfer.initiated"), ("transfer.failed")]
    enabled := true }

/-- A concrete happy-path environment used by witnesses and
counterexamples. -/
def demoEnv : Env :=
  { senderAddress := "0xsender"
    webhooks := [demoWebhook]
    balanceOf := fun _ _ => 1000000000
    allowanceOf := fun _ _ => 1000000000
    providerPresent := true
    rawBalance := 1000000000
    rawAllowance := 1000000000
    estimateGas := Except.ok 100000
    submitBurn := fun _ => Except.ok ("0xburntx")
    receiptLogs := fun _ => [ReceiptLog.messageSent ("0xmsgbytes")]
    keccakOfBytes := fun s => "0xhash-" ++ s
    mkHookId := fun a b c => "0xhid-" ++ a ++ b ++ c
    mkSwapId := fun t _ => "0xswap-" ++ t
    getAttestation := fun _ => AttResult.ready ("0xatt")
    fetchMessageBytes := Except.ok (some ("0xmsgbytes"))
    submitMint := fun _ _ _ _ => Except.ok ("0xminttx") }

/-- A concrete hook intent used by witnesses. -/
def demoHookMetadata : HookMetadata :=
  { hookType := HookType.NOTIFICATION
    callbackContract := none
    callbackData := none
    executionTiming := ExecutionTiming.POST_MINT
    gasLimit := none }

/-- Witness for the hook precedence: a concrete hook-enabled fast-flagged
transfer on the testnet registry, whose every submitted burn is the
hook-carrying variant. -/
theorem initiateTransfer_hook_precedence_witness :
    ({ useFastTransfer := true, enableHooks := true,
       hookMetadata := some demoHookMetadata } : InitiateOptions).enableHooks = true
    ∧ ({ useFastTransfer := true, enableHooks := true,
         hookMetadata := some demoHookMetadata } : InitiateOptions).hookMetadata
        = some demoHookMetadata
    ∧ ∀ c, Event.burnSubmit c ∈ (initiateTransfer (SUPPORTED_CHAINS true true) demoEnv
          ("ethereum") ("base") ("100.00") ("0xrecip")
          { useFastTransfer := true, enableHooks := true,
            hookMetadata := some demoHookMetadata }).1 →
        c.branch = BurnBranch.withHook
        ∧ c.hookData = some (encodeHookMetadata demoHookMetadata)
        ∧ c.branch ≠ BurnBranch.fastV2 :=
  ⟨rfl, rfl,
   initiateTransfer_hook_precedence (SUPPORTED_CHAINS true true) demoEnv ("ethereum")
     ("base") ("100.00") ("0xrecip")
     { useFastTransfer := true, enableHooks := true, hookMetadata := some demoHookMetadata }
     demoHookMetadata rfl rfl⟩

/-- C6 (amended): with fast-finality requested, no hook payload, and a
destination chain whose supportsFastTransfer flag is false, every burn
initiateTransfer submits goes through the standard depositForBurn code path
(no hook data, maxFee 500, estimate-based gas) — but its
minFinalityThreshold parameter is still 1000, the fast-class value, because
the standard path re-reads the requested fast flag; the request is ignored
by the branch selection, not by the finality-threshold parameter. -/
theorem initiateTransfer_gate_fallback (chains : String → Option ChainConfig) (env : Env)
    (sourceChain destinationChain amount recipientAddress : String)
    (options : InitiateOptions) (cd : ChainConfig)
    (hfastReq : options.useFastTransfer = true)
    (hNoHook : options.enableHooks = false ∨ options.hookMetadata = none)
    (hcd : chains destinationChain = some cd)
    (hnofast : cd.supportsFastTransfer = false) :
    ∀ c, Event.burnSubmit c ∈ (initiateTransfer chains env sourceChain destinationChain
        amount recipientAddress options).1 →
      c.branch = BurnBranch.standard ∧ c.hookData = none ∧ c.maxFee = some 500
      ∧ c.minFinalityThreshold = some 1000 := by
  intro c hc
  have hsel : (if options.enableHooks then options.hookMetadata else none) = none := by
    rcases hNoHook with h | h <;> simp [h]
  have hc1 := burnSubmit_mem_initiateTransfer chains env sourceChain destinationChain amount
    recipientAddress options c hc
  rw [(orchestratorBurn_plain_eq chains env sourceChain destinationChain amount
    recipientAddress options hsel).1] at hc1
  obtain ⟨cs, cd2, v, hcs2, hcd2, hp, hmem, _⟩ := initiateBurn_inv chains env sourceChain
    destinationChain amount recipientAddress (plainBurnOptions options) c hc1
  have hcdeq : cd2 = cd := by
    rw [hcd] at hcd2
    exact (Option.some.inj hcd2).symm
  have hhook : strTruthy (plainBurnOptions options).hooks = false := rfl
  have hgate : ((plainBurnOptions options).useFastTransfer && cs.supportsFastTransfer
      && cd2.supportsFastTransfer) = false := by
    rw [hcdeq]
    simp [hnofast]
  obtain ⟨h1, h2, h3, h4⟩ := burnBranch_gate_inv env sourceChain cs cd2 v recipientAddress
    (plainBurnOptions options) c hhook hgate hmem
  refine ⟨h1, h2, h3, ?_⟩
  rw [h4]
  simp [plainBurnOptions, hfastReq]

/-- Witness for the amended capability-gate behaviour: the testnet registry
with fast transfers disabled, a fast-flagged hook-free transfer from
ethereum to base. -/
theorem initiateTransfer_gate_fallback_witness :
    ({ useFastTransfer := true, enableHooks := false,
       hookMetadata := none } : InitiateOptions).useFastTransfer = true
    ∧ (SUPPORTED_CHAINS true false ("base")).map (fun cfg => cfg.supportsFastTransfer)
        = some false
    ∧ ∀ c, Event.burnSubmit c ∈ (initiateTransfer (SUPPORTED_CHAINS true false) demoEnv
          ("ethereum") ("base") ("100.00") ("0xrecip")
          { useFastTransfer := true, enableHooks := false, hookMetadata := none }).1 →
        c.branch = BurnBranch.standard ∧ c.hookData = none ∧ c.maxFee = some 500
        ∧ c.minFinalityThreshold = some 1000 :=
  ⟨rfl, rfl,
   initiateTransfer_gate_fallback (SUPPORTED_CHAINS true false) demoEnv ("ethereum")
     ("base") ("100.00") ("0xrecip")
     { useFastTransfer := true, enableHooks := false, hookMetadata := none }
     { id := 84532, name := "Base Sepolia", domainId := 6,
       tokenMessengerAddress := "0x8FE6B999Dc680CcFDD5Bf7EB0974218be2542DAA",
       messageTransmitterAddress := "0xE737e5cEBEEBa77EFE34D4aa090756590b1CE275",
       tokenMinterAddress := "0xb43db544E2c27092c107639Ad201b3dEfAbcF192",
       usdcAddress := "0x036CbD53842c5426634e7929541eC2318f3dCF7e",
       supportsSourceTransfer := true, supportsDestinationTransfer := true,
       supportsFastTransfer := false }
     rfl (Or.inl rfl) rfl rfl⟩

/-- C6 counterexample: at the concrete gate-blocked fast request above, the
single submitted burn goes down the standard path but carries
minFinalityThreshold 1000, not the standard value 0 the claim asserts
(standard non-fast parameters would be minFinalityThreshold 0). -/
theorem initiateTransfer_gate_fallback_counterexample :
    (SUPPORTED_CHAINS true false ("base")).map (fun cfg => cfg.supportsFastTransfer)
        = some false
    ∧ ((initiateTransfer (SUPPORTED_CHAINS true false) demoEnv ("ethereum") ("base")
          ("100.00") ("0xrecip")
          { useFastTransfer := true, enableHooks := false, hookMetadata := none }).1.filterMap
        (fun ev => match ev with
          | Event.burnSubmit c => some (c.branch, c.minFinalityThreshold)
          | _ => none))
        = [(BurnBranch.standard, some 1000)]
    ∧ (some 1000 : Option Nat) ≠ some 0 := by
  refine ⟨rfl, ?_, by decide⟩
  decide

/-- A failing burn step makes `initiateTransfer` re-raise the same error
after emitting the FAILED progress event at 0% with the human-readable
message. -/
theorem initiateTransfer_burn_error (chains : String → Option ChainConfig) (env : Env)
    (sourceChain destinationChain amount recipientAddress : String)
    (options : InitiateOptions) (e : JsError) (cfg : ChainConfig)
    (hcs : chains sourceChain = some cfg)
    (herr : (orchestratorBurn chains env sourceChain destinationChain amount recipientAddress
        options).2 = Except.error e) :
    (initiateTransfer chains env sourceChain destinationChain amount recipientAddress
        options).2 = Except.error e
    ∧ Event.progressEmitted Step.FAILED ("Transfer failed: " ++ errMessage e) none 0
        ∈ (initiateTransfer chains env sourceChain destinationChain amount recipientAddress
            options).1 := by
  unfold initiateTransfer
  rcases hob : orchestratorBurn chains env sourceChain destinationChain amount
      recipientAddress options with ⟨evB, res⟩
  rw [hob] at herr
  simp only at herr
  subst herr
  rw [hcs]
  constructor
  · simp [hob]
  · simp [hob, failTrace]

/-- C7 (amended): a burn transaction whose receipt contains no MessageSent
log makes initiateTransfer fail — but with the generic transaction-failure
wrapper whose message embeds the MessageNotFoundError text
(Transaction failed: MessageSent event not found in transaction receipt),
not with the bare MessageNotFoundError itself, the outer catch of
initiateBurn having re-wrapped it; before re-raising, a FAILED progress
event at 0% carrying the human-readable message is emitted. -/
theorem initiateTransfer_messageNotFound (chains : String → Option ChainConfig) (env : Env)
    (sourceChain destinationChain amount recipientAddress : String)
    (options : InitiateOptions) (c : BurnCall) (h : String)
    (hmem : Event.burnSubmit c ∈ (initiateTransfer chains env sourceChain destinationChain
        amount recipientAddress options).1)
    (hsub : env.submitBurn c = Except.ok h)
    (hlogs : ∀ l ∈ env.receiptLogs h, l = ReceiptLog.other) :
    (initiateTransfer chains env sourceChain destinationChain amount recipientAddress
        options).2
      = Except.error (JsError.txFailed (errMessage JsError.messageNotFound))
    ∧ Event.progressEmitted Step.FAILED
        ("Transfer failed: " ++ errMessage (JsError.txFailed (errMessage JsError.messageNotFound)))
        none 0
      ∈ (initiateTransfer chains env sourceChain destinationChain amount recipientAddress
          options).1 := by
  have hc1 := burnSubmit_mem_initiateTransfer chains env sourceChain destinationChain amount
    recipientAddress options c hmem
  cases hsel : (if options.enableHooks then options.hookMetadata else none) with
  | some hm =>
    obtain ⟨hfst, hprop⟩ := orchestratorBurn_hook_eq chains env sourceChain destinationChain
      amount recipientAddress options hm hsel
    rw [hfst] at hc1
    obtain ⟨cs, cd, v, hcs, hcd, hp, hmemB, hres⟩ := initiateBurn_inv chains env sourceChain
      destinationChain amount recipientAddress (hookBurnOptions hm) c hc1
    have hbb := burnBranch_noMessageSent env sourceChain cs cd v recipientAddress
      (hookBurnOptions hm) c h hmemB hsub hlogs
    exact initiateTransfer_burn_error chains env sourceChain destinationChain amount
      recipientAddress options _ cs hcs (hprop _ (hres.trans hbb))
  | none =>
    obtain ⟨hfst, hprop⟩ := orchestratorBurn_plain_eq chains env sourceChain destinationChain
      amount recipientAddress options hsel
    rw [hfst] at hc1
    obtain ⟨cs, cd, v, hcs, hcd, hp, hmemB, hres⟩ := initiateBurn_inv chains env sourceChain
      destinationChain amount recipientAddress (plainBurnOptions options) c hc1
    have hbb := burnBranch_noMessageSent env sourceChain cs cd v recipientAddress
      (plainBurnOptions options) c h hmemB hsub hlogs
    exact initiateTransfer_burn_error chains env sourceChain destinationChain amount
      recipientAddress options _ cs hcs (hprop _ (hres.trans hbb))

/-- The demo environment with a receipt that carries no MessageSent log. -/
def demoEnvNoMsg : Env :=
  { demoEnv with receiptLogs := fun _ => [ReceiptLog.other] }

/-- Witness for the amended message-not-found behaviour, at a concrete run
whose receipt holds only unparseable logs: the run fails with the wrapped
error. -/
theorem initiateTransfer_messageNotFound_witness :
    (∀ l ∈ demoEnvNoMsg.receiptLogs ("0xburntx"), l = ReceiptLog.other)
    ∧ (initiateTransfer (SUPPORTED_CHAINS true true) demoEnvNoMsg ("ethereum") ("base")
          ("100.00") ("0xrecip")
          { useFastTransfer := false, enableHooks := false, hookMetadata := none }).2
        = Except.error (JsError.txFailed (errMessage JsError.messageNotFound)) := by
  have hlogs : ∀ l ∈ demoEnvNoMsg.receiptLogs ("0xburntx"), l = ReceiptLog.other := by
    intro l hl
    simpa [demoEnvNoMsg, demoEnv] using hl
  refine ⟨hlogs, ?_⟩
  exact (initiateTransfer_messageNotFound (SUPPORTED_CHAINS true true) demoEnvNoMsg
    ("ethereum") ("base") ("100.00") ("0xrecip")
    { useFastTransfer := false, enableHooks := false, hookMetadata := none }
    (standardCall
      { id := 11155111, name := "Ethereum Sepolia", domainId := 0,
        tokenMessengerAddress := "0x8FE6B999Dc680CcFDD5Bf7EB0974218be2542DAA",
        messageTransmitterAddress := "0xE737e5cEBEEBa77EFE34D4aa090756590b1CE275",
        tokenMinterAddress := "0xb43db544E2c27092c107639Ad201b3dEfAbcF192",
        usdcAddress := "0x1c7D4B196Cb0C7B01d743Fbc6116a902379C7238",
        supportsSourceTransfer := true, supportsDestinationTransfer := true,
        supportsFastTransfer := true }
      { id := 84532, name := "Base Sepolia", domainId := 6,
        tokenMessengerAddress := "0x8FE6B999Dc680CcFDD5Bf7EB0974218be2542DAA",
        messageTransmitterAddress := "0xE737e5cEBEEBa77EFE34D4aa090756590b1CE275",
        tokenMinterAddress := "0xb43db544E2c27092c107639Ad201b3dEfAbcF192",
        usdcAddress := "0x036CbD53842c5426634e7929541eC2318f3dCF7e",
        supportsSourceTransfer := true, supportsDestinationTransfer := true,
        supportsFastTransfer := true }
      100000000 ("0xrecip") false 100000)
    ("0xburntx") (by decide) rfl hlogs).1

/-- C7 counterexample: at the same concrete run, the error initiateTransfer
raises is the generic transaction-failure wrapper embedding the
message-not-found text, not the bare MessageNotFoundError the claim names —
the distinct error identity is lost in the re-wrap — while the FAILED
progress event at 0% with a human-readable message is indeed emitted. -/
theorem initiateTransfer_messageNotFound_counterexample :
    (initiateTransfer (SUPPORTED_CHAINS true true) demoEnvNoMsg ("ethereum") ("base")
        ("100.00") ("0xrecip")
        { useFastTransfer := false, enableHooks := false, hookMetadata := none }).2
      = Except.error
          (JsError.txFailed ("MessageSent event not found in transaction receipt"))
    ∧ (initiateTransfer (SUPPORTED_CHAINS true true) demoEnvNoMsg ("ethereum") ("base")
        ("100.00") ("0xrecip")
        { useFastTransfer := false, enableHooks := false, hookMetadata := none }).2
      ≠ Except.error JsError.messageNotFound
    ∧ errMessage (JsError.txFailed ("MessageSent event not found in transaction receipt"))
      ≠ errMessage JsError.messageNotFound
    ∧ Event.progressEmitted Step.FAILED
        ("Transfer failed: Transaction failed: MessageSent event not found in transaction receipt")
        none 0
      ∈ (initiateTransfer (SUPPORTED_CHAINS true true) demoEnvNoMsg ("ethereum") ("base")
          ("100.00") ("0xrecip")
          { useFastTransfer := false, enableHooks := false, hookMetadata := none }).1 := by
  have h1 : (initiateTransfer (SUPPORTED_CHAINS true true) demoEnvNoMsg ("ethereum") ("base")
      ("100.00") ("0xrecip")
      { useFastTransfer := false, enableHooks := false, hookMetadata := none }).2
    = Except.error
        (JsError.txFailed ("MessageSent event not found in transaction receipt")) := by
    rfl
  refine ⟨h1, ?_, by decide, by decide⟩
  rw [h1]
  intro hcontra
  have hinj := Except.error.inj hcontra
  cases hinj

/-- External calls other than webhook deliveries: balance and allowance
reads, gas estimation, contract submissions, the message-bytes fetch and
merchant notification posts.  Progress events are local callbacks and
webhook deliveries are classified separately (the claim treats them on
their own). -/
def eventIsNonWebhookNetCall : Event → Bool
  | Event.balanceRead _ _ => true
  | Event.allowanceRead _ _ => true
  | Event.gasEstimateCall => true
  | Event.burnSubmit _ => true
  | Event.mintSubmit _ _ _ _ _ => true
  | Event.messageBytesFetch _ => true
  | Event.notifyPost _ => true
  | Event.progressEmitted _ _ _ _ => false
  | Event.webhookDelivery _ _ => false

/-- A burn step that fails with an empty trace (as amount validation does)
leaves the run with only webhook deliveries and progress events: the two
pre-burn webhooks, the BURNING progress event, the FAILED progress event and
the failure webhook. -/
theorem initiateTransfer_early_burn_failure (chains : String → Option ChainConfig)
    (env : Env) (sourceChain destinationChain amount recipientAddress : String)
    (options : InitiateOptions) (cfg : ChainConfig) (e : JsError)
    (hcs : chains sourceChain = some cfg)
    (hib : ∀ topts, initiateBurn chains env sourceChain destinationChain amount
        recipientAddress topts = ([], Except.error e)) :
    (initiateTransfer chains env sourceChain destinationChain amount recipientAddress
        options).2 = Except.error e
    ∧ ∀ ev ∈ (initiateTransfer chains env sourceChain destinationChain amount
        recipientAddress options).1, eventIsNonWebhookNetCall ev = false := by
  have horch : orchestratorBurn chains env sourceChain destinationChain amount
      recipientAddress options = ([], Except.error e) := by
    unfold orchestratorBurn
    cases hsel : (if options.enableHooks then options.hookMetadata else none) with
    | some hm => simp [initiateBurnWithHooks, hib (hookBurnOptions hm)]
    | none => simp [hib (plainBurnOptions options)]
  unfold initiateTransfer
  rw [hcs, horch]
  constructor
  · simp
  · intro ev hev
    simp [sendWebhookEvents, failTrace] at hev
    rcases hev with ⟨w, _, hw⟩ | hw | (⟨w, _, hw⟩ | (hw | ⟨w, _, hw⟩)) <;> subst hw <;> rfl

/-- C3 (amended): for every amount string that is non-numeric or parses to
a value ≤ 0 at 6-decimal precision (on a supported chain pair),
initiateTransfer fails at the amount-validation step — with the ethers
parse error for a malformed string or the Invalid amount error for a
non-positive value — before any balance read, allowance read, gas
estimation or chain transaction; however, webhook deliveries are NOT
excluded: the transfer.initiated and transfer.burning webhooks are
delivered before the validation runs, and a transfer.failed delivery
accompanies the rejection (the original claim wrongly asserted no webhook
delivery precedes the rejection). -/
theorem initiateTransfer_invalid_amount (chains : String → Option ChainConfig) (env : Env)
    (sourceChain destinationChain amount recipientAddress : String)
    (options : InitiateOptions) (cs cd : ChainConfig)
    (hcs : chains sourceChain = some cs) (hcd : chains destinationChain = some cd)
    (hbad : parseUnits6 amount = none ∨ ∃ v, parseUnits6 amount = some v ∧ v ≤ 0) :
    ((initiateTransfer chains env sourceChain destinationChain amount recipientAddress
        options).2 = Except.error JsError.parseUnitsError
      ∨ (initiateTransfer chains env sourceChain destinationChain amount recipientAddress
          options).2 = Except.error JsError.invalidAmount)
    ∧ ∀ ev ∈ (initiateTransfer chains env sourceChain destinationChain amount
        recipientAddress options).1, eventIsNonWebhookNetCall ev = false := by
  rcases hbad with hp | ⟨v, hp, hv⟩
  · have hib : ∀ topts, initiateBurn chains env sourceChain destinationChain amount
        recipientAddress topts = ([], Except.error JsError.parseUnitsError) :=
      fun topts => (initiateBurn_invalid_amount chains env sourceChain destinationChain
        amount recipientAddress topts cs cd hcs hcd).1 hp
    obtain ⟨h1, h2⟩ := initiateTransfer_early_burn_failure chains env sourceChain
      destinationChain amount recipientAddress options cs JsError.parseUnitsError hcs hib
    exact ⟨Or.inl h1, h2⟩
  · have hib : ∀ topts, initiateBurn chains env sourceChain destinationChain amount
        recipientAddress topts = ([], Except.error JsError.invalidAmount) :=
      fun topts => (initiateBurn_invalid_amount chains env sourceChain destinationChain
        amount recipientAddress topts cs cd hcs hcd).2 v hp hv
    obtain ⟨h1, h2⟩ := initiateTransfer_early_burn_failure chains env sourceChain
      destinationChain amount recipientAddress options cs JsError.invalidAmount hcs hib
    exact ⟨Or.inr h1, h2⟩

/-- Witness for the amended amount-validation behaviour: a zero amount on
the testnet registry is rejected with Invalid amount and no non-webhook
network call appears in the trace. -/
theorem initiateTransfer_invalid_amount_witness :
    (parseUnits6 ("0") = none ∨ ∃ v, parseUnits6 ("0") = some v ∧ v ≤ 0)
    ∧ (((initiateTransfer (SUPPORTED_CHAINS true true) demoEnv ("ethereum") ("base") ("0")
          ("0xrecip")
          { useFastTransfer := false, enableHooks := false, hookMetadata := none }).2
        = Except.error JsError.parseUnitsError
      ∨ (initiateTransfer (SUPPORTED_CHAINS true true) demoEnv ("ethereum") ("base") ("0")
          ("0xrecip")
          { useFastTransfer := false, enableHooks := false, hookMetadata := none }).2
        = Except.error JsError.invalidAmount)
      ∧ ∀ ev ∈ (initiateTransfer (SUPPORTED_CHAINS true true) demoEnv ("ethereum") ("base")
          ("0") ("0xrecip")
          { useFastTransfer := false, enableHooks := false, hookMetadata := none }).1,
          eventIsNonWebhookNetCall ev = false) :=
  ⟨Or.inr ⟨0, rfl, le_refl 0⟩,
   initiateTransfer_invalid_amount (SUPPORTED_CHAINS true true) demoEnv ("ethereum")
     ("base") ("0") ("0xrecip")
     { useFastTransfer := false, enableHooks := false, hookMetadata := none }
     { id := 11155111, name := "Ethereum Sepolia", domainId := 0,
       tokenMessengerAddress := "0x8FE6B999Dc680CcFDD5Bf7EB0974218be2542DAA",
       messageTransmitterAddress := "0xE737e5cEBEEBa77EFE34D4aa090756590b1CE275",
       tokenMinterAddress := "0xb43db544E2c27092c107639Ad201b3dEfAbcF192",
       usdcAddress := "0x1c7D4B196Cb0C7B01d743Fbc6116a902379C7238",
       supportsSourceTransfer := true, supportsDestinationTransfer := true,
       supportsFastTransfer := true }
     { id := 84532, name := "Base Sepolia", domainId := 6,
       tokenMessengerAddress := "0x8FE6B999Dc680CcFDD5Bf7EB0974218be2542DAA",
       messageTransmitterAddress := "0xE737e5cEBEEBa77EFE34D4aa090756590b1CE275",
       tokenMinterAddress := "0xb43db544E2c27092c107639Ad201b3dEfAbcF192",
       usdcAddress := "0x036CbD53842c5426634e7929541eC2318f3dCF7e",
       supportsSourceTransfer := true, supportsDestinationTransfer := true,
       supportsFastTransfer := true }
     rfl rfl (Or.inr ⟨0, rfl, le_refl 0⟩)⟩

/-- C3 counterexample: with a webhook registered for transfer.initiated, a
zero-amount initiateTransfer run delivers that webhook — a network call made
before the InvalidAmountError rejection — refuting the claim that no
webhook delivery precedes the rejection. -/
theorem initiateTransfer_invalid_amount_counterexample :
    (initiateTransfer (SUPPORTED_CHAINS true true) demoEnv ("ethereum") ("base") ("0")
        ("0xrecip")
        { useFastTransfer := false, enableHooks := false, hookMetadata := none }).2
      = Except.error JsError.invalidAmount
    ∧ Event.webhookDelivery ("https://example.com/hook") ("transfer.initiated")
        ∈ (initiateTransfer (SUPPORTED_CHAINS true true) demoEnv ("ethereum") ("base")
            ("0") ("0xrecip")
            { useFastTransfer := false, enableHooks := false, hookMetadata := none }).1
    ∧ ((initiateTransfer (SUPPORTED_CHAINS true true) demoEnv ("ethereum") ("base") ("0")
        ("0xrecip")
        { useFastTransfer := false, enableHooks := false, hookMetadata := none }).1.head?
      = some (Event.webhookDelivery ("https://example.com/hook") ("transfer.initiated"))) := by
  refine ⟨rfl, by decide, by decide⟩

/-- The single contract call of `completeMint`, with the variant flag and
gas limit the source passes. -/
theorem completeMint_fst (chains : String → Option ChainConfig) (env : Env)
    (destinationChain messageBytes attestation : String) (useUnfinalized : Bool)
    (cfg : ChainConfig) (hcd : chains destinationChain = some cfg) :
    (completeMint chains env destinationChain messageBytes attestation useUnfinalized).1
      = [Event.mintSubmit destinationChain messageBytes attestation useUnfinalized
          (if useUnfinalized then 400000 else 350000)] := by
  unfold completeMint
  rw [hcd]
  dsimp only
  split <;> rfl

/-- Mint variant flags submitted during a run (true means the unfinalized
receiveMessageUnfinalized variant was called). -/
def mintFlagsOf (evs : List Event) : List Bool :=
  evs.filterMap (fun ev =>
    match ev with
    | Event.mintSubmit _ _ _ u _ => some u
    | _ => none)

/-- Webhook deliveries contribute no mint flags. -/
theorem mintFlagsOf_deliveries (l : List WebhookConfig) (e : String) :
    mintFlagsOf (l.map (fun c => Event.webhookDelivery c.url e)) = [] := by
  induction l with
  | nil => rfl
  | cons hd tl ih => simp [mintFlagsOf, List.filterMap_cons]

/-- Webhook fan-out contributes no mint flags. -/
theorem mintFlagsOf_sendWebhookEvents (ws : List WebhookConfig) (e : String) :
    mintFlagsOf (sendWebhookEvents ws e) = [] :=
  mintFlagsOf_deliveries _ e

/-- C2 (code-bug evidence): for every completeTransfer call with the
attestation present and a known destination chain, the single mint
submission of the run uses the finalized receiveMessage variant
(useUnfinalized = false, gas 350000) — the source hardcodes the
useUnfinalized argument to false (its inline comment says it should be set
based on transfer type), so the unfinalized variant is never selected, even
when the original transfer used fast-finality. -/
theorem completeTransfer_always_finalized (chains : String → Option ChainConfig) (env : Env)
    (r : CrossChainTransferResult) (destinationChain : String) (a : String)
    (cfg : ChainConfig)
    (hatt : r.attestation = some a) (hcd : chains destinationChain = some cfg) :
    mintFlagsOf ((completeTransfer chains env r destinationChain).1) = [false] := by
  unfold completeTransfer
  rw [hatt, hcd]
  dsimp only
  rcases hcm : completeMint chains env destinationChain
      (getMessageBytes env r.messageHash).2 a false with ⟨evM, resM⟩
  have hevM : evM = [Event.mintSubmit destinationChain
      (getMessageBytes env r.messageHash).2 a false 350000] := by
    have hfst := congrArg Prod.fst hcm
    rw [completeMint_fst chains env destinationChain _ a false cfg hcd] at hfst
    simpa using hfst.symm
  have hdel : ∀ (e : String) (l : List WebhookConfig),
      List.filterMap
        ((fun ev =>
            match ev with
            | Event.mintSubmit _ _ _ u _ => some u
            | _ => none)
          ∘ fun c => Event.webhookDelivery c.url e) l = [] := by
    intro e l
    refine List.filterMap_eq_nil_iff.mpr ?_
    intro x _
    rfl
  cases resM with
  | error e =>
    simp [hevM, mintFlagsOf, List.filterMap_append, List.filterMap_cons, getMessageBytes,
      sendWebhookEvents, List.filterMap_map, hdel]
  | ok tx =>
    simp [hevM, mintFlagsOf, List.filterMap_append, List.filterMap_cons, getMessageBytes,
      sendWebhookEvents, List.filterMap_map, hdel]

/-- Witness for the finalized-only mint: the demo completion run submits
exactly one mint, with the finalized variant. -/
theorem completeTransfer_always_finalized_witness :
    ({ sourceTransactionHash := "0xburntx", messageHash := "0xmh",
       destinationTransactionHash := none, status := TransferStatus.ATTESTED,
       attestation := some ("0xatt"), hookId := none } : CrossChainTransferResult).attestation
      = some ("0xatt")
    ∧ mintFlagsOf ((completeTransfer (SUPPORTED_CHAINS true true) demoEnv
        { sourceTransactionHash := "0xburntx", messageHash := "0xmh",
          destinationTransactionHash := none, status := TransferStatus.ATTESTED,
          attestation := some ("0xatt"), hookId := none } ("base")).1) = [false] :=
  ⟨rfl,
   completeTransfer_always_finalized (SUPPORTED_CHAINS true true) demoEnv
     { sourceTransactionHash := "0xburntx", messageHash := "0xmh",
       destinationTransactionHash := none, status := TransferStatus.ATTESTED,
       attestation := some ("0xatt"), hookId := none } ("base") ("0xatt")
     { id := 84532, name := "Base Sepolia", domainId := 6,
       tokenMessengerAddress := "0x8FE6B999Dc680CcFDD5Bf7EB0974218be2542DAA",
       messageTransmitterAddress := "0xE737e5cEBEEBa77EFE34D4aa090756590b1CE275",
       tokenMinterAddress := "0xb43db544E2c27092c107639Ad201b3dEfAbcF192",
       usdcAddress := "0x036CbD53842c5426634e7929541eC2318f3dCF7e",
       supportsSourceTransfer := true, supportsDestinationTransfer := true,
       supportsFastTransfer := true }
     rfl rfl⟩

/-- With the attestation present, `completeTransfer` never fails with the
attestation-missing precondition error, and on success returns a fresh copy
of the input with only the destination hash and status changed. -/
theorem completeTransfer_attested (chains : String → Option ChainConfig) (env : Env)
    (r : CrossChainTransferResult) (destinationChain : String) (a : String)
    (hatt : r.attestation = some a) :
    (completeTransfer chains env r destinationChain).2
      ≠ Except.error JsError.attestationMissing
    ∧ ∀ r2, (completeTransfer chains env r destinationChain).2 = Except.ok r2 →
        r2.attestation = some a
        ∧ r2.sourceTransactionHash = r.sourceTransactionHash
        ∧ r2.messageHash = r.messageHash
        ∧ r2.hookId = r.hookId
        ∧ r2.status = TransferStatus.COMPLETED
        ∧ r2.destinationTransactionHash.isSome = true := by
  unfold completeTransfer
  rw [hatt]
  cases hcd : chains destinationChain with
  | none =>
    constructor
    · simp
    · intro r2 h
      simp at h
  | some cfg =>
    dsimp only
    rcases hcm : completeMint chains env destinationChain
        (getMessageBytes env r.messageHash).2 a false with ⟨evM, resM⟩
    cases resM with
    | error e =>
      have hne : e ≠ JsError.attestationMissing := by
        have h2 := congrArg Prod.snd hcm
        unfold completeMint at h2
        rw [hcd] at h2
        dsimp only at h2
        cases hsm : env.submitMint destinationChain (getMessageBytes env r.messageHash).2
            a false with
        | error m =>
          rw [hsm] at h2
          simp at h2
          rw [← h2]
          intro hx
          cases hx
        | ok tx =>
          rw [hsm] at h2
          simp at h2
      constructor
      · simp
        intro hx
        exact hne hx
      · intro r2 h
        simp at h
    | ok tx =>
      constructor
      · simp
      · intro r2 h
        simp at h
        rw [← h]
        simp [hatt]

/-- C9: completeTransfer takes the resumable result by value and never
mutates it (the source builds its return with an object spread, which the
pure embedding reflects); for any result whose attestation is present,
neither a first nor a second call — under possibly different environments
and registries — can fail with the local AttestationMissingError
precondition, and a successful call returns a new copy preserving the
attestation, hashes and hook id, with only the destination hash and
COMPLETED status added. -/
theorem completeTransfer_idempotent_precondition
    (chains1 chains2 : String → Option ChainConfig) (env1 env2 : Env)
    (r : CrossChainTransferResult) (dest1 dest2 : String) (a : String)
    (hatt : r.attestation = some a) :
    (completeTransfer chains1 env1 r dest1).2 ≠ Except.error JsError.attestationMissing
    ∧ (completeTransfer chains2 env2 r dest2).2 ≠ Except.error JsError.attestationMissing
    ∧ ∀ r2, (completeTransfer chains1 env1 r dest1).2 = Except.ok r2 →
        r2.attestation = some a
        ∧ r2.sourceTransactionHash = r.sourceTransactionHash
        ∧ r2.messageHash = r.messageHash
        ∧ r2.hookId = r.hookId
        ∧ r2.status = TransferStatus.COMPLETED
        ∧ r2.destinationTransactionHash.isSome = true :=
  ⟨(completeTransfer_attested chains1 env1 r dest1 a hatt).1,
   (completeTransfer_attested chains2 env2 r dest2 a hatt).1,
   (completeTransfer_attested chains1 env1 r dest1 a hatt).2⟩

/-- Witness for the idempotent precondition: completing the same attested
demo result twice never trips the precondition, and the successful first
call preserves the fields. -/
theorem completeTransfer_idempotent_precondition_witness :
    ({ sourceTransactionHash := "0xburntx", messageHash := "0xmh",
       destinationTransactionHash := none, status := TransferStatus.ATTESTED,
       attestation := some ("0xatt"), hookId := none } : CrossChainTransferResult).attestation
      = some ("0xatt")
    ∧ ((completeTransfer (SUPPORTED_CHAINS true true) demoEnv
          { sourceTransactionHash := "0xburntx", messageHash := "0xmh",
            destinationTransactionHash := none, status := TransferStatus.ATTESTED,
            attestation := some ("0xatt"), hookId := none } ("base")).2
        ≠ Except.error JsError.attestationMissing
      ∧ (completeTransfer (SUPPORTED_CHAINS true true) demoEnv
          { sourceTransactionHash := "0xburntx", messageHash := "0xmh",
            destinationTransactionHash := none, status := TransferStatus.ATTESTED,
            attestation := some ("0xatt"), hookId := none } ("base")).2
        ≠ Except.error JsError.attestationMissing
      ∧ ∀ r2, (completeTransfer (SUPPORTED_CHAINS true true) demoEnv
            { sourceTransactionHash := "0xburntx", messageHash := "0xmh",
              destinationTransactionHash := none, status := TransferStatus.ATTESTED,
              attestation := some ("0xatt"), hookId := none } ("base")).2 = Except.ok r2 →
          r2.attestation = some ("0xatt")
          ∧ r2.sourceTransactionHash = "0xburntx"
          ∧ r2.messageHash = "0xmh"
          ∧ r2.hookId = none
          ∧ r2.status = TransferStatus.COMPLETED
          ∧ r2.destinationTransactionHash.isSome = true) := by
  refine ⟨rfl, ?_⟩
  have h := completeTransfer_idempotent_precondition (SUPPORTED_CHAINS true true)
    (SUPPORTED_CHAINS true true) demoEnv demoEnv
    { sourceTransactionHash := "0xburntx", messageHash := "0xmh",
      destinationTransactionHash := none, status := TransferStatus.ATTESTED,
      attestation := some ("0xatt"), hookId := none } ("base") ("base") ("0xatt") rfl
  exact h

/-- C10: with the attestation present and a known destination chain, a
failing message-bytes lookup — the fetch throwing, or the response carrying
no (or an empty) messageBytes field — does not fail the completion at that
step: getMessageBytes yields the placeholder bytes 0x and the mint is still
submitted with those placeholder bytes (finalized variant, gas 350000). -/
theorem completeTransfer_messageBytes_fallback (chains : String → Option ChainConfig)
    (env : Env) (r : CrossChainTransferResult) (destinationChain : String) (a : String)
    (cfg : ChainConfig)
    (hatt : r.attestation = some a) (hcd : chains destinationChain = some cfg)
    (hfb : env.fetchMessageBytes = Except.error ()
      ∨ env.fetchMessageBytes = Except.ok none
      ∨ env.fetchMessageBytes = Except.ok (some (""))) :
    (getMessageBytes env r.messageHash).2 = "0x"
    ∧ Event.mintSubmit destinationChain ("0x") a false 350000
        ∈ (completeTransfer chains env r destinationChain).1 := by
  have hmb : (getMessageBytes env r.messageHash).2 = "0x" := by
    rcases hfb with h | h | h <;> simp [getMessageBytes, h]
  refine ⟨hmb, ?_⟩
  unfold completeTransfer
  rw [hatt, hcd]
  dsimp only
  rcases hcm : completeMint chains env destinationChain
      (getMessageBytes env r.messageHash).2 a false with ⟨evM, resM⟩
  have hevM : evM = [Event.mintSubmit destinationChain ("0x") a false 350000] := by
    have hfst := congrArg Prod.fst hcm
    rw [completeMint_fst chains env destinationChain _ a false cfg hcd] at hfst
    rw [hmb] at hfst
    simpa using hfst.symm
  cases resM with
  | error e => simp [hevM]
  | ok tx => simp [hevM]

/-- The demo environment whose message-bytes fetch throws. -/
def demoEnvNoBytes : Env :=
  { demoEnv with fetchMessageBytes := Except.error () }

/-- Witness for the message-bytes fallback: a completion run whose bytes
fetch throws still submits the mint with the 0x placeholder. -/
theorem completeTransfer_messageBytes_fallback_witness :
    ({ sourceTransactionHash := "0xburntx", messageHash := "0xmh",
       destinationTransactionHash := none, status := TransferStatus.ATTESTED,
       attestation := some ("0xatt"), hookId := none } : CrossChainTransferResult).attestation
      = some ("0xatt")
    ∧ demoEnvNoBytes.fetchMessageBytes = Except.error ()
    ∧ ((getMessageBytes demoEnvNoBytes ("0xmh")).2 = "0x"
      ∧ Event.mintSubmit ("base") ("0x") ("0xatt") false 350000
          ∈ (completeTransfer (SUPPORTED_CHAINS true true) demoEnvNoBytes
              { sourceTransactionHash := "0xburntx", messageHash := "0xmh",
                destinationTransactionHash := none, status := TransferStatus.ATTESTED,
                attestation := some ("0xatt"), hookId := none } ("base")).1) :=
  ⟨rfl, rfl,
   completeTransfer_messageBytes_fallback (SUPPORTED_CHAINS true true) demoEnvNoBytes
     { sourceTransactionHash := "0xburntx", messageHash := "0xmh",
       destinationTransactionHash := none, status := TransferStatus.ATTESTED,
       attestation := some ("0xatt"), hookId := none } ("base") ("0xatt")
     { id := 84532, name := "Base Sepolia", domainId := 6,
       tokenMessengerAddress := "0x8FE6B999Dc680CcFDD5Bf7EB0974218be2542DAA",
       messageTransmitterAddress := "0xE737e5cEBEEBa77EFE34D4aa090756590b1CE275",
       tokenMinterAddress := "0xb43db544E2c27092c107639Ad201b3dEfAbcF192",
       usdcAddress := "0x036CbD53842c5426634e7929541eC2318f3dCF7e",
       supportsSourceTransfer := true, supportsDestinationTransfer := true,
       supportsFastTransfer := true }
     rfl rfl (Or.inl rfl)⟩

/-- Truthiness test and truthiness filter agree. -/
theorem strTruthy_eq_isSome (o : Option String) : strTruthy o = (truthyStr o).isSome := by
  cases o with
  | none => rfl
  | some s =>
    unfold strTruthy truthyStr
    cases h : s == "" <;> simp [h]

/-- C8: processPaymentHooks runs the configured hooks in the fixed order
notify, rebalance, swap.  Scenario D: a registered merchant config with only
webhookUrl set produces exactly the trace of one notify call and exactly the
one-element tag list NOTIFICATION — rebalance and swap are never invoked.
Scenario E: a registered config with both rebalanceTarget and autoSwapToken
set, whenever the dispatch returns a tag list, returns REBALANCE:<id>
immediately followed by SWAP:<id> at the end of that list (after the
optional NOTIFICATION tag). -/
theorem processPaymentHooks_dispatch
    (chainsD : String → Option ChainConfig) (envD : Env)
    (getConfigD : String → Option MerchantHookConfig)
    (midD amtD dcD : String) (cfgD : MerchantHookConfig) (urlD : String)
    (hD : getConfigD midD = some cfgD)
    (hDurl : truthyStr cfgD.webhookUrl = some urlD)
    (hDreb : truthyStr cfgD.rebalanceTarget = none)
    (hDswap : truthyStr cfgD.autoSwapToken = none)
    (chainsE : String → Option ChainConfig) (envE : Env)
    (getConfigE : String → Option MerchantHookConfig)
    (midE amtE dcE : String) (cfgE : MerchantHookConfig) (targetE tokenE : String)
    (hE : getConfigE midE = some cfgE)
    (hEreb : truthyStr cfgE.rebalanceTarget = some targetE)
    (hEswap : truthyStr cfgE.autoSwapToken = some tokenE)
    (lE : List String)
    (hEok : (processPaymentHooks chainsE envE getConfigE midE amtE dcE).2 = Except.ok lE) :
    processPaymentHooks chainsD envD getConfigD midD amtD dcD
      = ([Event.notifyPost urlD], Except.ok [("NOTIFICATION")])
    ∧ ∃ rid sid,
        lE = (if strTruthy cfgE.webhookUrl then [("NOTIFICATION")] else [])
          ++ [("REBALANCE:" ++ rid), ("SWAP:" ++ sid)] := by
  constructor
  · unfold processPaymentHooks
    rw [hD]
    simp only [hDurl, hDreb, hDswap]
    rfl
  · unfold processPaymentHooks at hEok
    rw [hE] at hEok
    simp only [hEreb, hEswap] at hEok
    rcases hr : executeRebalanceHook chainsE envE dcE targetE amtE with ⟨evR, resR⟩
    rw [hr] at hEok
    cases resR with
    | error e =>
      cases hwu : truthyStr cfgE.webhookUrl with
      | none =>
        rw [hwu] at hEok
        simp at hEok
      | some u =>
        rw [hwu] at hEok
        simp at hEok
    | ok rid =>
      rcases hs : executeSwapHook envE amtE tokenE with ⟨evS, resS⟩
      rw [hs] at hEok
      cases resS with
      | error e =>
        cases hwu : truthyStr cfgE.webhookUrl with
        | none =>
          rw [hwu] at hEok
          simp at hEok
        | some u =>
          rw [hwu] at hEok
          simp at hEok
      | ok sid =>
        refine ⟨rid, sid, ?_⟩
        cases hwu : truthyStr cfgE.webhookUrl with
        | none =>
          rw [hwu] at hEok
          simp at hEok
          rw [← hEok]
          simp [strTruthy_eq_isSome, hwu]
        | some u =>
          rw [hwu] at hEok
          simp at hEok
          rw [← hEok]
          simp [strTruthy_eq_isSome, hwu]

/-- A merchant config with only the webhook URL set (Scenario D). -/
def demoMerchantD : MerchantHookConfig :=
  { merchantId := "m1"
    webhookUrl := some ("https://m.example/cb")
    rebalanceTarget := none
    autoSwapToken := none
    customHookContract := none }

/-- A merchant config with rebalance target and auto-swap token set
(Scenario E). -/
def demoMerchantE : MerchantHookConfig :=
  { merchantId := "m2"
    webhookUrl := none
    rebalanceTarget := some ("arbitrum")
    autoSwapToken := some ("0xtok")
    customHookContract := none }

/-- Witness for the dispatch ordering: the concrete Scenario D run makes
exactly one notify call returning the NOTIFICATION tag, and the concrete
Scenario E run returns REBALANCE then SWAP adjacently. -/
theorem processPaymentHooks_dispatch_witness :
    truthyStr demoMerchantD.webhookUrl = some ("https://m.example/cb")
    ∧ truthyStr demoMerchantD.rebalanceTarget = none
    ∧ truthyStr demoMerchantE.rebalanceTarget = some ("arbitrum")
    ∧ truthyStr demoMerchantE.autoSwapToken = some ("0xtok")
    ∧ (processPaymentHooks (SUPPORTED_CHAINS true true) demoEnv
          (fun _ => some demoMerchantE) ("m2") ("50") ("base")).2
        = Except.ok [("REBALANCE:0xhid-basearbitrum0xhash-0xmsgbytes"), ("SWAP:0xswap-0xtok")]
    ∧ (processPaymentHooks (SUPPORTED_CHAINS true true) demoEnv
          (fun _ => some demoMerchantD) ("m1") ("50") ("base")
        = ([Event.notifyPost ("https://m.example/cb")], Except.ok [("NOTIFICATION")])
      ∧ ∃ rid sid,
          [("REBALANCE:0xhid-basearbitrum0xhash-0xmsgbytes"), ("SWAP:0xswap-0xtok")]
            = (if strTruthy demoMerchantE.webhookUrl then [("NOTIFICATION")] else [])
              ++ [("REBALANCE:" ++ rid), ("SWAP:" ++ sid)]) := by
  refine ⟨rfl, rfl, rfl, rfl, rfl, ?_⟩
  exact processPaymentHooks_dispatch (SUPPORTED_CHAINS true true) demoEnv
    (fun _ => some demoMerchantD) ("m1") ("50") ("base") demoMerchantD
    ("https://m.example/cb") rfl rfl rfl rfl
    (SUPPORTED_CHAINS true true) demoEnv (fun _ => some demoMerchantE) ("m2") ("50")
    ("base") demoMerchantE ("arbitrum") ("0xtok") rfl rfl rfl
    [("REBALANCE:0xhid-basearbitrum0xhash-0xmsgbytes"), ("SWAP:0xswap-0xtok")] rfl
